import Mathlib

/-!
Verification of the conversation-relay flex dialler server.

This file gives a shallow embedding, in Lean, of the conversation
orchestration core of the repository: the silence monitor
(`src/server/services/SilenceHandler.js`), the LLM turn-taking engine and
tool executor (`src/server/services/LlmService.js`, streaming variant and
switch variant), the per-call orchestrator cleanup
(`src/server/services/ConversationRelayService.js`), and the websocket
setup / prompt handlers (`src/server/server.js` and the `part_003`
variant).  JavaScript platform primitives (Date.now, setInterval,
JSON.parse, fetch, the OpenAI stream) are modelled as explicit parameters
or oracles; exceptions are modelled with `Except`; event emissions and
other side effects are recorded in explicit traces.

Time is in milliseconds (`Nat`); interval ticks fire every 1000 ms as in
the JavaScript `setInterval(…, 1000)`.
-/

/-- Outbound message envelopes of the relay protocol, as built by
`SilenceHandler` and `LlmService`.  The JavaScript objects carry a `type`
discriminator (`text`, `end`, `sendDigits`, `error`); `endEnv` carries the
JSON-stringified `handoffData`, modelled structurally. -/
structure HandoffData where
  reasonCode : String
  reason : String
  conversationSummary : Option String := none
deriving DecidableEq, Repr

inductive OutMessage where
  /-- `\x7b type: "text", token, last \x7d` -/
  | text (token : String) (last : Bool)
  /-- `\x7b type: "end", handoffData \x7d` -/
  | endEnv (handoffData : HandoffData)
  /-- `\x7b type: "sendDigits", digits \x7d`; `digits` is `undefined` when
  the parsed arguments have no `dtmfDigit` field, hence `Option`. -/
  | sendDigits (digits : Option String)
  /-- `\x7b type: "error", token, last \x7d` -/
  | error (token : String) (last : Bool)
deriving DecidableEq, Repr

/-! ## Silence monitor (`src/server/services/SilenceHandler.js`)

State of a `SilenceHandler` instance.  `silenceTimerSet` models the
`this.silenceTimer` handle being non-null (it is assigned in
`startMonitoring` and never nulled), while `silenceTimerActive` models the
interval actually being scheduled (cleared by `clearInterval`). -/
structure SilenceHandler where
  silenceSecondsThreshold : Nat
  silenceRetryThreshold : Nat
  lastMessageTime : Option Nat
  silenceTimerSet : Bool
  silenceTimerActive : Bool
  silenceRetryCount : Nat
  messageCallbackSet : Bool
deriving DecidableEq, Repr

/-- The `SilenceHandler` constructor, with the two thresholds taken from
the environment (`SILENCE_SECONDS_THRESHOLD`, `SILENCE_RETRY_THRESHOLD`). -/
def mkSilenceHandler (threshold retries : Nat) : SilenceHandler :=
  { silenceSecondsThreshold := threshold
    silenceRetryThreshold := retries
    lastMessageTime := none
    silenceTimerSet := false
    silenceTimerActive := false
    silenceRetryCount := 0
    messageCallbackSet := false }

/-- `createEndCallMessage`: the termination message sent when the retry
threshold is exceeded. -/
def SilenceHandler.createEndCallMessage : OutMessage :=
  .endEnv { reasonCode := "unresponsive", reason := "The caller was not speaking" }

/-- `createSilenceBreakerMessage`: returns a reminder for retry counts 1
and 2; for any other count the JavaScript function falls off the end and
returns `undefined`, modelled as `none`. -/
def SilenceHandler.createSilenceBreakerMessage (count : Nat) : Option OutMessage :=
  if count = 1 then some (.text "Still there?" true)
  else if count = 2 then some (.text "Just checking you are still there?" true)
  else none

/-- `startMonitoring`: records the current time, stores the callback and
schedules the interval timer. -/
def SilenceHandler.startMonitoring (h : SilenceHandler) (now : Nat) : SilenceHandler :=
  { h with lastMessageTime := some now
           messageCallbackSet := true
           silenceTimerSet := true
           silenceTimerActive := true }

/-- One firing of the `setInterval` callback at time `now`.  Returns the
updated handler state together with the list of invocations of
`this.messageCallback` performed by this firing; each invocation carries
the argument passed to the callback, which is `undefined` (`none`) when
`createSilenceBreakerMessage` returned nothing.  In JavaScript
`(now - null)` coerces `null` to `0`, hence `getD 0`. -/
def SilenceHandler.tick (h : SilenceHandler) (now : Nat) :
    SilenceHandler × List (Option OutMessage) :=
  if h.silenceTimerActive then
    let silenceTime := (now - h.lastMessageTime.getD 0) / 1000
    if h.silenceSecondsThreshold ≤ silenceTime then
      let count := h.silenceRetryCount + 1
      if h.silenceRetryThreshold ≤ count then
        ({ h with silenceRetryCount := count
                  silenceTimerActive := false
                  lastMessageTime := some now },
         if h.messageCallbackSet then [some SilenceHandler.createEndCallMessage] else [])
      else
        ({ h with silenceRetryCount := count
                  lastMessageTime := some now },
         if h.messageCallbackSet then [SilenceHandler.createSilenceBreakerMessage count] else [])
    else (h, [])
  else (h, [])

/-- `resetTimer`: when monitoring has started (`lastMessageTime` non-null)
reset both the elapsed-time baseline and the retry count. -/
def SilenceHandler.resetTimer (h : SilenceHandler) (now : Nat) : SilenceHandler :=
  match h.lastMessageTime with
  | some _ => { h with lastMessageTime := some now, silenceRetryCount := 0 }
  | none => h

/-- Resource-release actions observable from `cleanup`. -/
inductive CleanupEffect where
  | clearInterval
deriving DecidableEq, Repr

/-- `SilenceHandler.cleanup`: if the timer handle is set, clear the
interval and drop the callback reference. -/
def SilenceHandler.cleanup (h : SilenceHandler) : SilenceHandler × List CleanupEffect :=
  if h.silenceTimerSet then
    ({ h with silenceTimerActive := false, messageCallbackSet := false }, [.clearInterval])
  else (h, [])

/-- Run `n` interval firings, one every 1000 ms, the first at
`start + 1000`, with no inbound activity in between (continuous silence).
Each callback invocation is tagged with the time of the firing that
produced it. -/
def SilenceHandler.runSilent (h : SilenceHandler) (start : Nat) :
    Nat → SilenceHandler × List (Nat × Option OutMessage)
  | 0 => (h, [])
  | n + 1 =>
    let t := start + 1000
    let step := h.tick t
    let rest := SilenceHandler.runSilent step.fst t n
    (rest.fst, step.snd.map (fun e => (t, e)) ++ rest.snd)

/-- The state of a handler that is actively monitoring with retry count
`r` and elapsed-time baseline `t`. -/
def monitoringState (threshold retries r t : Nat) : SilenceHandler :=
  { silenceSecondsThreshold := threshold
    silenceRetryThreshold := retries
    lastMessageTime := some t
    silenceTimerSet := true
    silenceTimerActive := true
    silenceRetryCount := r
    messageCallbackSet := true }

/-- The state after the monitor has terminated the call: the interval is
no longer scheduled (the handle itself is never nulled). -/
def endedState (threshold retries r t : Nat) : SilenceHandler :=
  { silenceSecondsThreshold := threshold
    silenceRetryThreshold := retries
    lastMessageTime := some t
    silenceTimerSet := true
    silenceTimerActive := false
    silenceRetryCount := r
    messageCallbackSet := true }

theorem startMonitoring_mk (threshold retries now : Nat) :
    (mkSilenceHandler threshold retries).startMonitoring now
      = monitoringState threshold retries 0 now := rfl

/-- The sequence of callback invocations the monitor performs under
continuous silence, starting from retry count `r` and baseline `t`, until
termination: `d` invocations in total, one every `T` seconds, the last
being the end-call message. -/
def expectedSilenceTrace (T t r : Nat) : Nat → List (Nat × Option OutMessage)
  | 0 => []
  | 1 => [(t + 1000 * T, some SilenceHandler.createEndCallMessage)]
  | d + 2 =>
    (t + 1000 * T, SilenceHandler.createSilenceBreakerMessage (r + 1)) ::
      expectedSilenceTrace T (t + 1000 * T) (r + 1) (d + 1)

theorem elapsed_calc (t j : Nat) : (t + 1000 * j - t) / 1000 = j := by
  have h : t + 1000 * j - t = 1000 * j := by omega
  rw [h, Nat.mul_div_cancel_left]
  norm_num

theorem tick_quiet (T C r t now : Nat) (h : (now - t) / 1000 < T) :
    (monitoringState T C r t).tick now = (monitoringState T C r t, []) := by
  unfold SilenceHandler.tick monitoringState
  simp [Nat.not_le.mpr h]

theorem tick_reminder (T C r t : Nat) (hrC : r + 1 < C) :
    (monitoringState T C r t).tick (t + 1000 * T)
      = (monitoringState T C (r + 1) (t + 1000 * T),
         [SilenceHandler.createSilenceBreakerMessage (r + 1)]) := by
  unfold SilenceHandler.tick monitoringState
  simp [elapsed_calc, Nat.not_le.mpr hrC]

theorem tick_end (T C r t : Nat) (hrC : C ≤ r + 1) :
    (monitoringState T C r t).tick (t + 1000 * T)
      = (endedState T C (r + 1) (t + 1000 * T),
         [some SilenceHandler.createEndCallMessage]) := by
  unfold SilenceHandler.tick monitoringState endedState
  simp [elapsed_calc, hrC]

theorem tick_inactive (h : SilenceHandler) (now : Nat) (hact : h.silenceTimerActive = false) :
    h.tick now = (h, []) := by
  unfold SilenceHandler.tick
  simp [hact]

theorem runSilent_one (h : SilenceHandler) (s : Nat) :
    h.runSilent s 1
      = ((h.tick (s + 1000)).fst,
         (h.tick (s + 1000)).snd.map (fun e => (s + 1000, e))) := by
  simp [SilenceHandler.runSilent]

theorem runSilent_add (m : Nat) : ∀ (h : SilenceHandler) (start n : Nat),
    h.runSilent start (m + n)
      = (((h.runSilent start m).fst.runSilent (start + 1000 * m) n).fst,
         (h.runSilent start m).snd
           ++ ((h.runSilent start m).fst.runSilent (start + 1000 * m) n).snd) := by
  induction m with
  | zero =>
    intro h start n
    simp [SilenceHandler.runSilent]
  | succ m ih =>
    intro h start n
    rw [Nat.succ_add]
    simp only [SilenceHandler.runSilent]
    rw [ih]
    have harith : start + 1000 + 1000 * m = start + 1000 * (m + 1) := by ring_nf
    rw [harith]
    simp

theorem runSilent_quiet (T C r t : Nat) :
    ∀ (k j : Nat), j + k < T →
    (monitoringState T C r t).runSilent (t + 1000 * j) k = (monitoringState T C r t, []) := by
  intro k
  induction k with
  | zero => intro j _; rfl
  | succ k ih =>
    intro j hjk
    simp only [SilenceHandler.runSilent]
    have ht : t + 1000 * j + 1000 = t + 1000 * (j + 1) := by ring_nf
    rw [ht]
    have hq : (monitoringState T C r t).tick (t + 1000 * (j + 1))
        = (monitoringState T C r t, []) := by
      apply tick_quiet
      rw [elapsed_calc]
      omega
    rw [hq]
    have := ih (j + 1) (by omega)
    simp [this]

theorem runSilent_period_reminder (T C r t : Nat) (hT : 1 ≤ T) (hrC : r + 1 < C) :
    (monitoringState T C r t).runSilent t T
      = (monitoringState T C (r + 1) (t + 1000 * T),
         [(t + 1000 * T, SilenceHandler.createSilenceBreakerMessage (r + 1))]) := by
  have hsplit := runSilent_add (T - 1) (monitoringState T C r t) t 1
  have hTT : (T - 1) + 1 = T := by omega
  rw [hTT] at hsplit
  have hquiet := runSilent_quiet T C r t (T - 1) 0 (by omega)
  rw [Nat.mul_zero, Nat.add_zero] at hquiet
  rw [hsplit, hquiet]
  simp only [runSilent_one]
  have ht : t + 1000 * (T - 1) + 1000 = t + 1000 * T := by omega
  rw [ht, tick_reminder T C r t hrC]
  simp

theorem runSilent_period_end (T C r t : Nat) (hT : 1 ≤ T) (hrC : C ≤ r + 1) :
    (monitoringState T C r t).runSilent t T
      = (endedState T C (r + 1) (t + 1000 * T),
         [(t + 1000 * T, some SilenceHandler.createEndCallMessage)]) := by
  have hsplit := runSilent_add (T - 1) (monitoringState T C r t) t 1
  have hTT : (T - 1) + 1 = T := by omega
  rw [hTT] at hsplit
  have hquiet := runSilent_quiet T C r t (T - 1) 0 (by omega)
  rw [Nat.mul_zero, Nat.add_zero] at hquiet
  rw [hsplit, hquiet]
  simp only [runSilent_one]
  have ht : t + 1000 * (T - 1) + 1000 = t + 1000 * T := by omega
  rw [ht, tick_end T C r t hrC]
  simp

theorem runSilent_escalation (T C : Nat) (hT : 1 ≤ T) :
    ∀ (d : Nat), 1 ≤ d → ∀ (r t : Nat), r + d = C →
    (monitoringState T C r t).runSilent t (d * T)
      = (endedState T C C (t + 1000 * T * d), expectedSilenceTrace T t r d) := by
  intro d
  induction d with
  | zero => omega
  | succ d ih =>
    intro _ r t hrd
    by_cases hd : d = 0
    · subst hd
      rw [Nat.one_mul]
      have hrC : C ≤ r + 1 := by omega
      rw [runSilent_period_end T C r t hT hrC]
      have h1 : r + 1 = C := by omega
      rw [h1]
      have h2 : 1000 * T * 1 = 1000 * T := by ring_nf
      simp [expectedSilenceTrace, h2, Nat.mul_comm]
    · have hd1 : 1 ≤ d := by omega
      have hrC : r + 1 < C := by omega
      have hmul : (d + 1) * T = T + d * T := by ring
      rw [hmul, runSilent_add T, Nat.mul_comm 1000 T]
      rw [Nat.mul_comm T 1000] at *
      rw [runSilent_period_reminder T C r t hT hrC]
      simp only []
      have hrec := ih hd1 (r + 1) (t + 1000 * T) (by omega)
      rw [hrec]
      have harith : t + 1000 * T + 1000 * T * d = t + 1000 * T * (d + 1) := by ring
      rw [harith]
      cases d with
      | zero => omega
      | succ d0 =>
        simp [expectedSilenceTrace]

/-- Element-wise shape of the silence escalation trace: entry `i` fires at
`t + 1000·T·(i+1)`; it is the end-call message when it is the last entry,
and otherwise the result of `createSilenceBreakerMessage` for retry count
`r+1+i`. -/
theorem expectedSilenceTrace_get (T : Nat) :
    ∀ (d t r i : Nat), i < d →
    (expectedSilenceTrace T t r d).get? i
      = some (if i + 1 = d
              then (t + 1000 * T * d, some SilenceHandler.createEndCallMessage)
              else (t + 1000 * T * (i + 1),
                    SilenceHandler.createSilenceBreakerMessage (r + 1 + i))) := by
  intro d
  induction d with
  | zero => omega
  | succ d ih =>
    intro t r i hi
    cases d with
    | zero =>
      have h0 : i = 0 := by omega
      subst h0
      simp [expectedSilenceTrace, Nat.mul_one]
    | succ d0 =>
      cases i with
      | zero =>
        simp [expectedSilenceTrace, Nat.mul_one]
      | succ i0 =>
        have hrec := ih (t + 1000 * T) (r + 1) i0 (by omega)
        simp only [expectedSilenceTrace, List.get?]
        rw [hrec]
        by_cases hlast : i0 + 1 = d0 + 1
        · rw [if_pos hlast, if_pos (show i0 + 1 + 1 = d0 + 1 + 1 by omega)]
          have h2 : t + 1000 * T + 1000 * T * (d0 + 1) = t + 1000 * T * (d0 + 1 + 1) := by ring
          rw [h2]
        · rw [if_neg hlast, if_neg (show ¬ (i0 + 1 + 1 = d0 + 1 + 1) by omega)]
          have h2 : t + 1000 * T + 1000 * T * (i0 + 1) = t + 1000 * T * (i0 + 1 + 1) := by ring
          have h3 : r + 1 + 1 + i0 = r + 1 + (i0 + 1) := by ring
          rw [h2, h3]

theorem expectedSilenceTrace_length (T : Nat) :
    ∀ (d t r : Nat), (expectedSilenceTrace T t r d).length = d := by
  intro d
  induction d with
  | zero => intro t r; rfl
  | succ d ih =>
    intro t r
    cases d with
    | zero => rfl
    | succ d0 =>
      simp only [expectedSilenceTrace, List.length_cons]
      rw [ih]

theorem runSilent_start (T C : Nat) (hT : 1 ≤ T) (hC : 1 ≤ C) :
    ((mkSilenceHandler T C).startMonitoring 0).runSilent 0 (C * T)
      = (endedState T C C (1000 * T * C), expectedSilenceTrace T 0 0 C) := by
  rw [startMonitoring_mk]
  have h := runSilent_escalation T C hT C hC 0 0 (by omega)
  rw [h]
  norm_num [Nat.mul_comm]

/-- C2 (amended): started with threshold `T` (seconds) and ceiling `C`,
under continuous silence the monitor invokes its callback once every
further `T` seconds; while the incremented count `k` is below `C` the
invocation carries `createSilenceBreakerMessage k` (a well-formed reminder
only for attempts 1 and 2 — for attempts ≥ 3 the callback receives
`undefined`); once the count reaches `C` a single termination message of
type `end` with reasonCode `unresponsive` is emitted, after which the
interval stops ticking; and `resetTimer` while monitoring is active resets
both the elapsed-time baseline and the reminder count to zero. -/
theorem silence_monitor_escalation (T C : Nat) (hT : 1 ≤ T) (hC : 1 ≤ C) :
    (((mkSilenceHandler T C).startMonitoring 0).runSilent 0 (C * T)).snd
        = expectedSilenceTrace T 0 0 C
    ∧ (∀ i, i + 1 < C →
        (((mkSilenceHandler T C).startMonitoring 0).runSilent 0 (C * T)).snd.get? i
          = some (1000 * T * (i + 1), SilenceHandler.createSilenceBreakerMessage (i + 1)))
    ∧ (((mkSilenceHandler T C).startMonitoring 0).runSilent 0 (C * T)).snd.get? (C - 1)
        = some (1000 * T * C, some SilenceHandler.createEndCallMessage)
    ∧ (((mkSilenceHandler T C).startMonitoring 0).runSilent 0 (C * T)).fst.silenceTimerActive
        = false
    ∧ (∀ now, (((mkSilenceHandler T C).startMonitoring 0).runSilent 0 (C * T)).fst.tick now
        = ((((mkSilenceHandler T C).startMonitoring 0).runSilent 0 (C * T)).fst, []))
    ∧ (∀ (h : SilenceHandler) (now : Nat), h.lastMessageTime ≠ none →
        h.resetTimer now = { h with lastMessageTime := some now, silenceRetryCount := 0 }) := by
  have hrun := runSilent_start T C hT hC
  refine ⟨by rw [hrun], ?_, ?_, by rw [hrun]; rfl, ?_, ?_⟩
  · intro i hi
    rw [hrun]
    simp only []
    rw [expectedSilenceTrace_get T C 0 0 i (by omega)]
    rw [if_neg (by omega)]
    rw [show (0:Nat) + 1 + i = i + 1 by omega]
    norm_num
  · rw [hrun]
    simp only []
    rw [expectedSilenceTrace_get T C 0 0 (C - 1) (by omega)]
    rw [if_pos (by omega)]
    norm_num
  · intro now
    rw [hrun]
    exact tick_inactive _ now rfl
  · intro h now hmt
    unfold SilenceHandler.resetTimer
    cases hlt : h.lastMessageTime with
    | none => exact absurd hlt hmt
    | some u => rfl

theorem silence_monitor_escalation_witness :
    (((mkSilenceHandler 5 3).startMonitoring 0).runSilent 0 15).snd
      = [(5000, some (OutMessage.text "Still there?" true)),
         (10000, some (OutMessage.text "Just checking you are still there?" true)),
         (15000, some SilenceHandler.createEndCallMessage)] := by
  have h := (silence_monitor_escalation 5 3 (by norm_num) (by norm_num)).1
  exact h.trans (by decide)

/-- C2 counterexample: with threshold 1 s and ceiling 4, the third
callback invocation — reminder count 3, still below the ceiling — carries
no message at all (`createSilenceBreakerMessage` returned `undefined`), so
the emitted sequence is not made of well-formed reminder messages at every
pre-ceiling attempt. -/
theorem silence_monitor_escalation_counterexample :
    (((mkSilenceHandler 1 4).startMonitoring 0).runSilent 0 4).snd.get? 2
        = some (3000, none)
    ∧ (((mkSilenceHandler 1 4).startMonitoring 0).runSilent 0 4).snd.get? 2
        ≠ some (3000, some (OutMessage.text "Still there?" true))
    ∧ (((mkSilenceHandler 1 4).startMonitoring 0).runSilent 0 4).snd.get? 2
        ≠ some (3000, some (OutMessage.text "Just checking you are still there?" true)) := by
  refine ⟨by decide, by decide, by decide⟩

/-- C10: `createSilenceBreakerMessage` returns a defined reminder message
only for counts 1 and 2; with a retry ceiling `C > 3`, the reminder tick
for any count `k` with `3 ≤ k < C` invokes the registered callback with
`undefined` (`none`) instead of a message object. -/
theorem silence_breaker_undefined_above_two (T C k : Nat) (hT : 1 ≤ T) (hC : 3 < C)
    (hk3 : 3 ≤ k) (hkC : k < C) :
    (∀ m, (SilenceHandler.createSilenceBreakerMessage m).isSome = true ↔ m = 1 ∨ m = 2)
    ∧ (((mkSilenceHandler T C).startMonitoring 0).runSilent 0 (C * T)).snd.get? (k - 1)
        = some (1000 * T * k, none) := by
  constructor
  · intro m
    by_cases h1 : m = 1
    · simp [SilenceHandler.createSilenceBreakerMessage, h1]
    · by_cases h2 : m = 2
      · simp [SilenceHandler.createSilenceBreakerMessage, h1, h2]
      · simp [SilenceHandler.createSilenceBreakerMessage, h1, h2]
  · rw [runSilent_start T C (by omega) (by omega)]
    simp only []
    rw [expectedSilenceTrace_get T C 0 0 (k - 1) (by omega)]
    rw [if_neg (by omega)]
    have hk : k - 1 + 1 = k := by omega
    rw [hk]
    have hbr : SilenceHandler.createSilenceBreakerMessage (0 + 1 + (k - 1)) = none := by
      unfold SilenceHandler.createSilenceBreakerMessage
      rw [if_neg (by omega), if_neg (by omega)]
    rw [hbr]
    norm_num

theorem silence_breaker_undefined_above_two_witness :
    (((mkSilenceHandler 1 5).startMonitoring 0).runSilent 0 5).snd.get? 2
      = some (3000, none) := by
  have h := (silence_breaker_undefined_above_two 1 5 3 (by norm_num) (by norm_num)
    (by norm_num) (by norm_num)).2
  exact h

/-! ## Orchestrator cleanup (`src/server/services/ConversationRelayService.js`) -/

/-- The per-call mutable state of a `ConversationRelayService` relevant to
`cleanup`: the `this.silenceHandler` field. -/
structure ConversationRelayState where
  silenceHandler : Option SilenceHandler
deriving DecidableEq, Repr

/-- `ConversationRelayService.cleanup`: if a silence handler exists, clean
it up and null the reference. -/
def ConversationRelayService.cleanup (s : ConversationRelayState) :
    ConversationRelayState × List CleanupEffect :=
  match s.silenceHandler with
  | some h => ({ silenceHandler := none }, h.cleanup.snd)
  | none => (s, [])

/-- C9: cleanup is idempotent.  Calling it twice in succession (it is a
total function, hence never throws) makes the second call a no-op: the
state is unchanged and no further release effect is produced, and across
both calls the interval timer is cleared at most once. -/
theorem cleanup_idempotent (s : ConversationRelayState) :
    ConversationRelayService.cleanup (ConversationRelayService.cleanup s).fst
        = ((ConversationRelayService.cleanup s).fst, [])
    ∧ (ConversationRelayService.cleanup s).snd.count CleanupEffect.clearInterval
        + (ConversationRelayService.cleanup
            (ConversationRelayService.cleanup s).fst).snd.count CleanupEffect.clearInterval
        ≤ 1 := by
  obtain ⟨sh⟩ := s
  cases sh with
  | none => simp [ConversationRelayService.cleanup]
  | some h =>
    by_cases ht : h.silenceTimerSet
    · simp [ConversationRelayService.cleanup, SilenceHandler.cleanup, ht]
    · simp [ConversationRelayService.cleanup, SilenceHandler.cleanup, ht]

/-! ## Turn-taking engine (`src/server/services/LlmService.js`, streaming variant) -/

/-- A parsed JSON body, as produced by the platform `JSON.parse` on tool
arguments: modelled as a flat field map, sufficient for the fields the
engine reads (`dtmfDigit`). -/
structure ParsedArgs where
  fields : List (String × String)
deriving DecidableEq, Repr

def ParsedArgs.get (a : ParsedArgs) (k : String) : Option String :=
  (a.fields.find? (fun p => p.fst == k)).map Prod.snd

/-- Outcome of `fetch` on `TWILIO_FUNCTIONS_URL/tools/<name>` followed by
body decoding, for a business-tool call. -/
inductive FetchOutcome where
  /-- `response.ok` held and `response.json()` succeeded; the argument is
  the serialization of the decoded result. -/
  | ok (bodyJson : String)
  /-- `response.ok` was false: HTTP failure with status and body text. -/
  | notOk (status : Nat) (bodyText : String)
  /-- the fetch itself (or the body decoding) rejected with this message. -/
  | reject (msg : String)
deriving DecidableEq, Repr

/-- The platform environment of the engine: `JSON.parse` (returning the
thrown error message on failure) and the outbound business-tool `fetch`. -/
structure JsEnv where
  jsonParse : String → Except String ParsedArgs
  fetchTool : String → ParsedArgs → FetchOutcome

/-- JavaScript exceptions the engine can raise. -/
inductive JsError where
  | referenceError (msg : String)
  | typeError (msg : String)
  | genericError (msg : String)
deriving DecidableEq, Repr

/-- `JSON.stringify(\x7b error: msg \x7d)`. -/
def jsonErrorString (msg : String) : String :=
  "\x7b\"error\":\"" ++ msg ++ "\"\x7d"

/-- Observable steps of one engine turn, in program order. -/
inductive LlmStep where
  /-- a call to `openai.chat.completions.create` (a model completion request) -/
  | completionRequest
  /-- entry to `executeToolCall` for the named tool -/
  | executeTool (name : String)
  /-- the outbound `fetch` performed for a business tool -/
  | fetchCall (name : String) (args : ParsedArgs)
  /-- `this.emit(\x27llm.response\x27, m)` -/
  | emitResponse (m : OutMessage)
  /-- `this.emit(\x27llm.error\x27, e)` -/
  | emitError (e : JsError)
deriving DecidableEq, Repr

/-- JavaScript truthiness of an optional string (`undefined`, `null` and
`""` are falsy). -/
def truthyStr : Option String → Bool
  | none => false
  | some s => !(s == "")

/-- The (possibly malformed) `toolCall.function` record validated by
`executeToolCall`. -/
structure RawToolCall where
  name : Option String
  arguments : Option String
deriving DecidableEq, Repr

/-- `LlmService.executeToolCall` (streaming variant): validates the call
structure and the argument JSON, then dispatches on the tool name.  The
`live-agent-handoff` branch evaluates the undeclared identifier
`handoffSummary` and therefore throws a `ReferenceError`.  Returns the
result (or thrown error) together with the side-effect steps performed. -/
def executeToolCall (env : JsEnv) (tc : RawToolCall) :
    Except JsError OutMessage × List LlmStep :=
  if truthyStr tc.name && truthyStr tc.arguments then
    let name := tc.name.getD ""
    let args := tc.arguments.getD ""
    match env.jsonParse args with
    | .error _ =>
      (.ok (.error (jsonErrorString "Invalid tool call arguments - not valid JSON") true), [])
    | .ok parsed =>
      if name = "live-agent-handoff" then
        (.error (.referenceError "handoffSummary is not defined"), [])
      else if name = "send-dtmf" then
        (.ok (.sendDigits (parsed.get "dtmfDigit")), [])
      else if name = "end-call" then
        (.ok (.endEnv { reasonCode := "end-call", reason := "Ending the call" }), [])
      else
        match env.fetchTool name parsed with
        | .ok bodyJson => (.ok (.text bodyJson false), [.fetchCall name parsed])
        | .notOk status bodyText =>
          (.ok (.error (jsonErrorString
              ("API call failed with status " ++ toString status ++ ": " ++ bodyText)) true),
           [.fetchCall name parsed])
        | .reject msg =>
          (.ok (.error (jsonErrorString msg) true), [.fetchCall name parsed])
  else
    (.ok (.error (jsonErrorString "Invalid tool call structure - missing required fields") true),
     [])

/-- One element of the `tool_calls` delta array of a streamed chunk. -/
structure StreamDelta where
  index : Nat
  id : Option String
  name : Option String
  argsFragment : Option String
deriving DecidableEq, Repr

/-- One streamed completion chunk (`chunk.choices[0]`). -/
structure StreamChunk where
  content : Option String
  toolCalls : List StreamDelta := []
  finishReason : Option String := none
deriving DecidableEq, Repr

/-- The `toolCallCollector` of `generateResponse` (its `arguments` field
is never written; fragments go to `accumulatedArguments`). -/
structure Collector where
  id : String
  name : String
deriving DecidableEq, Repr

/-- Processing of one tool-call delta: initialize the collector on the
first index-0 delta, record the function name when present (a name on a
delta while the collector is still null dereferences null and throws),
and append any argument fragment to the accumulator. -/
def processDelta (st : Option Collector × String) (d : StreamDelta) :
    Except JsError (Option Collector × String) :=
  let col1 : Option Collector :=
    if d.index == 0 && st.fst.isNone then
      some { id := d.id.getD "generated", name := "" }
    else st.fst
  let acc1 := if truthyStr d.argsFragment then st.snd ++ d.argsFragment.getD "" else st.snd
  if truthyStr d.name then
    match col1 with
    | none => .error (.typeError "Cannot set properties of null")
    | some c => .ok (some { c with name := d.name.getD "" }, acc1)
  else
    .ok (col1, acc1)

def processDeltas (col : Option Collector) (acc : String) :
    List StreamDelta → Except JsError (Option Collector × String)
  | [] => .ok (col, acc)
  | d :: rest =>
    match processDelta (col, acc) d with
    | .error e => .error e
    | .ok st2 => processDeltas st2.fst st2.snd rest

def braceOpen : Char := Char.ofNat 123

def braceClose : Char := Char.ofNat 125

/-- The regex `^(\x7b[^\x7d]+\x7d)` used to trim concatenated argument
objects down to the first one: an opening brace, one or more non-brace
characters, a closing brace. -/
def firstJsonObject (s : String) : Option String :=
  match s.data with
  | [] => none
  | c :: rest =>
    if c = braceOpen then
      let inner := rest.takeWhile (fun ch => ch ≠ braceClose)
      if 1 ≤ inner.length ∧ inner.length < rest.length then
        some (String.mk (braceOpen :: (inner ++ [braceClose])))
      else none
    else none

/-- `JSON.stringify(toolResult)`, used when recording a tool result in the
conversation history. -/
def stringifyOut : OutMessage → String
  | .text token last =>
    "\x7b\"type\":\"text\",\"token\":\"" ++ token ++ "\",\"last\":"
      ++ (if last then "true" else "false") ++ "\x7d"
  | .endEnv h =>
    "\x7b\"type\":\"end\",\"handoffData\":\"" ++ h.reasonCode ++ "/" ++ h.reason ++ "\"\x7d"
  | .sendDigits d =>
    "\x7b\"type\":\"sendDigits\",\"digits\":\"" ++ d.getD "" ++ "\"\x7d"
  | .error token last =>
    "\x7b\"type\":\"error\",\"token\":\"" ++ token ++ "\",\"last\":"
      ++ (if last then "true" else "false") ++ "\x7d"

/-- `\x7b id, type: "function", function: \x7b name, arguments \x7d \x7d`
inside an assistant history entry. -/
structure AssistantToolCall where
  id : String
  name : String
  arguments : String
deriving DecidableEq, Repr

/-- One entry of `this.promptContext` (the conversation transcript). -/
structure ChatMsg where
  role : String
  content : String
  tool_calls : List AssistantToolCall := []
  tool_call_id : Option String := none
deriving DecidableEq, Repr

/-- `toolResult.type === "end" || toolResult.type === "error"`. -/
def isEndOrError : OutMessage → Bool
  | .endEnv _ => true
  | .error _ _ => true
  | _ => false

deriving instance DecidableEq for Except

/-- Result of one `generateResponse` turn: final transcript, ordered side
effects, and the JavaScript return value (`none` for the normal
fall-through return, `some m` for an early `return m`) or a thrown error. -/
structure GenResult where
  ctx : List ChatMsg
  trace : List LlmStep
  result : Except JsError (Option OutMessage)
deriving DecidableEq, Repr

/-- The follow-up stream loop: emit each content fragment and accumulate
it onto `fullResponse`. -/
def followUpRun : List StreamChunk → String → String × List LlmStep
  | [], full => (full, [])
  | c :: rest, full =>
    if truthyStr c.content then
      let tok := c.content.getD ""
      let r := followUpRun rest (full ++ tok)
      (r.fst, .emitResponse (.text tok false) :: r.snd)
    else followUpRun rest full

/-- The body of `generateResponse` (streaming variant): iterate the
streamed chunks, threading the transcript (`this.promptContext`), the
side-effect trace, `fullResponse`, the tool-call collector and the
argument accumulator.  When the model finishes a chunk with
`finish_reason === "tool_calls"`, validate and execute the collected tool
call: `end`/`error` results are returned immediately; other results are
recorded as an assistant/tool history pair and a follow-up completion is
requested, whose content chunks (`followUp`) are streamed out before the
loop resumes.  On fall-through the final content is emitted with
`last := true`. -/
def genLoop (env : JsEnv) (followUp : List StreamChunk) :
    List StreamChunk → List ChatMsg → List LlmStep → String → Option Collector → String →
    GenResult
  | [], ctx, trace, full, col, _acc =>
    let ctx2 := if col.isNone then ctx ++ [{ role := "assistant", content := full }] else ctx
    { ctx := ctx2, trace := trace ++ [.emitResponse (.text full true)], result := .ok none }
  | c :: rest, ctx, trace, full, col, acc =>
    let full1 := if truthyStr c.content then full ++ c.content.getD "" else full
    let trace1 :=
      if truthyStr c.content then
        trace ++ [.emitResponse (.text (c.content.getD "") false)]
      else trace
    match processDeltas col acc c.toolCalls with
    | .error e => { ctx := ctx, trace := trace1 ++ [.emitError e], result := .error e }
    | .ok st1 =>
      match st1.fst with
      | none => genLoop env followUp rest ctx trace1 full1 none st1.snd
      | some collector =>
        if c.finishReason == some "tool_calls" then
          if collector.name = "" then
            let msg : OutMessage :=
              .error (jsonErrorString "Missing function name in tool call") true
            { ctx := ctx, trace := trace1 ++ [.emitResponse msg], result := .ok (some msg) }
          else if st1.snd = "" then
            let msg : OutMessage :=
              .error (jsonErrorString "Invalid tool call arguments: No arguments provided") true
            { ctx := ctx, trace := trace1 ++ [.emitResponse msg], result := .ok (some msg) }
          else
            let acc2 := (firstJsonObject st1.snd).getD st1.snd
            match env.jsonParse acc2 with
            | .error emsg =>
              let msg : OutMessage :=
                .error (jsonErrorString ("Invalid tool call arguments: " ++ emsg)) true
              { ctx := ctx, trace := trace1 ++ [.emitResponse msg], result := .ok (some msg) }
            | .ok _parsed =>
              let exec := executeToolCall env
                { name := some collector.name, arguments := some acc2 }
              let trace2 := trace1 ++ [.executeTool collector.name] ++ exec.snd
              match exec.fst with
              | .error e =>
                { ctx := ctx, trace := trace2 ++ [.emitError e], result := .error e }
              | .ok toolResult =>
                if isEndOrError toolResult then
                  { ctx := ctx, trace := trace2, result := .ok (some toolResult) }
                else
                  let ctx2 := ctx
                    ++ [{ role := "assistant", content := full1,
                          tool_calls := [{ id := collector.id, name := collector.name,
                                           arguments := acc2 }] }]
                    ++ [{ role := "tool", content := stringifyOut toolResult,
                          tool_call_id := some collector.id }]
                  let fres := followUpRun followUp full1
                  genLoop env followUp rest ctx2
                    (trace2 ++ [.completionRequest] ++ fres.snd) fres.fst
                    (some collector) acc2
        else
          genLoop env followUp rest ctx trace1 full1 (some collector) st1.snd

/-- `LlmService.generateResponse` (streaming variant): push the prompt,
request the streamed completion (`stream`), and run the chunk loop. -/
def generateResponse (env : JsEnv) (followUp : List StreamChunk) (ctx0 : List ChatMsg)
    (role prompt : String) (stream : List StreamChunk) : GenResult :=
  genLoop env followUp stream (ctx0 ++ [{ role := role, content := prompt }])
    [.completionRequest] "" none ""

/-- `LlmService.insertMessageIntoContext`. -/
def insertMessageIntoContext (ctx : List ChatMsg) (role message : String) : List ChatMsg :=
  ctx ++ [{ role := role, content := message }]

/-- A stream in which the model requests exactly one tool call and
finishes the turn for it: one chunk with a single index-0 delta carrying
the call id, the function name and the complete argument string. -/
def singleToolCallStream (cid name args : String) : List StreamChunk :=
  [{ content := none
     toolCalls := [{ index := 0, id := some cid, name := some name,
                     argsFragment := some args }]
     finishReason := some "tool_calls" }]

def countCompletions (tr : List LlmStep) : Nat := tr.count LlmStep.completionRequest

theorem countCompletions_followUpRun (fu : List StreamChunk) :
    ∀ full, countCompletions (followUpRun fu full).snd = 0 := by
  induction fu with
  | nil => intro full; rfl
  | cons c rest ih =>
    intro full
    unfold followUpRun
    by_cases hc : truthyStr c.content = true
    · simp only [hc, if_true, countCompletions, List.count_cons]
      have := ih (full ++ c.content.getD "")
      simp only [countCompletions] at this
      simp [this]
    · simp only [Bool.not_eq_true] at hc
      simp only [hc]
      exact ih full

theorem firstJsonObject_ne_empty (s m : String) (h : firstJsonObject s = some m) :
    m ≠ "" := by
  unfold firstJsonObject at h
  split at h
  · exact absurd h (by simp)
  · split at h
    · dsimp only at h
      split at h
      · have hm : String.mk (braceOpen :: _) = m := Option.some.inj h
        intro hemp
        rw [hemp] at hm
        have := congrArg String.data hm
        simp at this
      · exact absurd h (by simp)
    · exact absurd h (by simp)

theorem trimmedArgs_ne_empty (args : String) (h : args ≠ "") :
    (firstJsonObject args).getD args ≠ "" := by
  cases hf : firstJsonObject args with
  | none => simpa [hf] using h
  | some m =>
    simp only [hf, Option.getD]
    exact firstJsonObject_ne_empty args m hf

theorem truthyStr_some (s : String) (h : s ≠ "") : truthyStr (some s) = true := by
  simp [truthyStr, h]

/-- Reduction of `executeToolCall` once the structure and argument JSON
have been validated: the remaining behaviour is the tool-name dispatch. -/
theorem executeToolCall_valid (env : JsEnv) (name acc2 : String) (p : ParsedArgs)
    (hn : name ≠ "") (ha : acc2 ≠ "") (hp : env.jsonParse acc2 = .ok p) :
    executeToolCall env { name := some name, arguments := some acc2 }
      = (if name = "live-agent-handoff" then
           (.error (.referenceError "handoffSummary is not defined"), [])
         else if name = "send-dtmf" then
           (.ok (.sendDigits (p.get "dtmfDigit")), [])
         else if name = "end-call" then
           (.ok (.endEnv { reasonCode := "end-call", reason := "Ending the call" }), [])
         else
           match env.fetchTool name p with
           | .ok bodyJson => (.ok (.text bodyJson false), [.fetchCall name p])
           | .notOk status bodyText =>
             (.ok (.error (jsonErrorString
                 ("API call failed with status " ++ toString status ++ ": " ++ bodyText)) true),
              [.fetchCall name p])
           | .reject msg =>
             (.ok (.error (jsonErrorString msg) true), [.fetchCall name p])) := by
  unfold executeToolCall
  rw [show truthyStr (some name) = true from truthyStr_some name hn]
  rw [show truthyStr (some acc2) = true from truthyStr_some acc2 ha]
  simp only [Bool.and_self, if_true, Option.getD]
  rw [hp]

/-- Behaviour of one `generateResponse` turn in which the model requests a
single named tool call with well-formed arguments: the turn validates and
executes the tool; an `end`/`error` result is returned with no further
completion request; a thrown error aborts the turn after an `llm.error`
emission; any other result is recorded as an assistant/tool history pair
and a follow-up completion is requested. -/
theorem generateResponse_singleToolCall (env : JsEnv) (followUp : List StreamChunk)
    (ctx0 : List ChatMsg) (role prompt cid name args : String) (p : ParsedArgs)
    (hname : name ≠ "") (hargs : args ≠ "")
    (hparse : env.jsonParse ((firstJsonObject args).getD args) = .ok p) :
    generateResponse env followUp ctx0 role prompt (singleToolCallStream cid name args)
      = (let acc2 := (firstJsonObject args).getD args
         let exec := executeToolCall env { name := some name, arguments := some acc2 }
         let ctxU := ctx0 ++ [{ role := role, content := prompt }]
         match exec.fst with
         | .error e =>
           { ctx := ctxU,
             trace := [.completionRequest, .executeTool name] ++ exec.snd ++ [.emitError e],
             result := .error e }
         | .ok toolResult =>
           if isEndOrError toolResult then
             { ctx := ctxU,
               trace := [.completionRequest, .executeTool name] ++ exec.snd,
               result := .ok (some toolResult) }
           else
             { ctx := ctxU
                 ++ [{ role := "assistant", content := "",
                       tool_calls := [{ id := cid, name := name, arguments := acc2 }] }]
                 ++ [{ role := "tool", content := stringifyOut toolResult,
                       tool_call_id := some cid }],
               trace := [.completionRequest, .executeTool name] ++ exec.snd
                 ++ [.completionRequest] ++ (followUpRun followUp "").snd
                 ++ [.emitResponse (.text (followUpRun followUp "").fst true)],
               result := .ok none }) := by
  have hacc : (firstJsonObject args).getD args ≠ "" := trimmedArgs_ne_empty args hargs
  unfold generateResponse singleToolCallStream
  simp only [genLoop, processDeltas, processDelta, truthyStr, Option.isNone,
    beq_self_eq_true, Bool.and_self, Option.getD_some]
  rw [show (name == "") = false from by simp [hname]]
  rw [show (args == "") = false from by simp [hargs]]
  rw [show ("" ++ args : String) = args from rfl]
  simp only [Bool.not_false, if_true, if_false, if_neg hname, if_neg hargs]
  rw [hparse]
  rfl

/-- C3 (amended): for a turn in which the model requests `end-call`, the
turn short-circuits: the dedicated `end` outcome with reasonCode
`end-call` is returned and no further model completion is requested after
the tool executes.  For `send-dtmf` the executor produces the dedicated
`sendDigits` envelope, but the turn does not short-circuit: the envelope
is only serialized into the `tool` transcript entry, a follow-up model
completion is requested after the tool executes, and no `sendDigits`
event or return value is surfaced.  For `live-agent-handoff` the executor
throws a `ReferenceError` on the undeclared `handoffSummary`, so the turn
aborts with an `llm.error` emission and produces no `end` outcome. -/
theorem terminal_tool_shortcircuit (env : JsEnv) (followUp : List StreamChunk)
    (ctx0 : List ChatMsg) (role prompt cid args : String) (p : ParsedArgs)
    (hargs : args ≠ "")
    (hparse : env.jsonParse ((firstJsonObject args).getD args) = .ok p) :
    ((generateResponse env followUp ctx0 role prompt
        (singleToolCallStream cid "end-call" args)).result
        = .ok (some (.endEnv { reasonCode := "end-call", reason := "Ending the call" }))
      ∧ countCompletions (generateResponse env followUp ctx0 role prompt
          (singleToolCallStream cid "end-call" args)).trace = 1)
    ∧ (countCompletions (generateResponse env followUp ctx0 role prompt
          (singleToolCallStream cid "send-dtmf" args)).trace = 2
      ∧ (generateResponse env followUp ctx0 role prompt
          (singleToolCallStream cid "send-dtmf" args)).result = .ok none
      ∧ (generateResponse env followUp ctx0 role prompt
          (singleToolCallStream cid "send-dtmf" args)).ctx
          = ctx0 ++ [{ role := role, content := prompt }]
            ++ [{ role := "assistant", content := "",
                  tool_calls := [{ id := cid, name := "send-dtmf",
                                   arguments := (firstJsonObject args).getD args }] }]
            ++ [{ role := "tool",
                  content := stringifyOut (.sendDigits (p.get "dtmfDigit")),
                  tool_call_id := some cid }])
    ∧ ((generateResponse env followUp ctx0 role prompt
        (singleToolCallStream cid "live-agent-handoff" args)).result
        = .error (.referenceError "handoffSummary is not defined")
      ∧ countCompletions (generateResponse env followUp ctx0 role prompt
          (singleToolCallStream cid "live-agent-handoff" args)).trace = 1) := by
  have hacc : (firstJsonObject args).getD args ≠ "" := trimmedArgs_ne_empty args hargs
  have hend := generateResponse_singleToolCall env followUp ctx0 role prompt cid
    "end-call" args p (by decide) hargs hparse
  have hdtmf := generateResponse_singleToolCall env followUp ctx0 role prompt cid
    "send-dtmf" args p (by decide) hargs hparse
  have hhandoff := generateResponse_singleToolCall env followUp ctx0 role prompt cid
    "live-agent-handoff" args p (by decide) hargs hparse
  dsimp only at hend hdtmf hhandoff
  rw [executeToolCall_valid env "end-call" _ p (by decide) hacc hparse] at hend
  rw [executeToolCall_valid env "send-dtmf" _ p (by decide) hacc hparse] at hdtmf
  rw [executeToolCall_valid env "live-agent-handoff" _ p (by decide) hacc hparse] at hhandoff
  rw [if_neg (by decide), if_neg (by decide), if_pos rfl] at hend
  rw [if_neg (by decide), if_pos rfl] at hdtmf
  rw [if_pos rfl] at hhandoff
  simp [isEndOrError] at hend hdtmf hhandoff
  refine ⟨⟨?_, ?_⟩, ⟨?_, ?_, ?_⟩, ⟨?_, ?_⟩⟩
  · rw [hend]
  · rw [hend]
    simp [countCompletions]
  · rw [hdtmf]
    have hfu := countCompletions_followUpRun followUp ""
    simp only [countCompletions, List.count_append] at hfu ⊢
    simp [hfu]
  · rw [hdtmf]
  · rw [hdtmf]
    simp
  · rw [hhandoff]
  · rw [hhandoff]
    simp [countCompletions]

/-- The argument payload `\x7b"dtmfDigit":"5"\x7d` as a string. -/
def dtmfArgsString : String :=
  String.mk (braceOpen :: ("\"dtmfDigit\":\"5\"".data ++ [braceClose]))

/-- A concrete platform environment: `JSON.parse` accepts exactly the
DTMF payload, and every business-tool fetch succeeds. -/
def envDtmf : JsEnv :=
  { jsonParse := fun s =>
      if s = dtmfArgsString then .ok ⟨[("dtmfDigit", "5")]⟩ else .error "Unexpected token"
    fetchTool := fun _ _ => .ok "RESULT" }

/-- C3 counterexample: on a concrete `send-dtmf` turn the engine requests
a further model completion immediately after the tool executes (trace
positions 1 and 2), so `send-dtmf` does not short-circuit the turn; and
on a concrete `live-agent-handoff` turn the engine throws a
`ReferenceError` instead of producing the dedicated `end` outcome. -/
theorem terminal_tool_shortcircuit_counterexample :
    (generateResponse envDtmf [] [] "user" "press five"
        (singleToolCallStream "call-1" "send-dtmf" dtmfArgsString)).trace.get? 1
        = some (.executeTool "send-dtmf")
    ∧ (generateResponse envDtmf [] [] "user" "press five"
        (singleToolCallStream "call-1" "send-dtmf" dtmfArgsString)).trace.get? 2
        = some .completionRequest
    ∧ (generateResponse envDtmf [] [] "user" "press five"
        (singleToolCallStream "call-1" "live-agent-handoff" dtmfArgsString)).result
        = .error (.referenceError "handoffSummary is not defined") :=
  ⟨rfl, rfl, rfl⟩

theorem terminal_tool_shortcircuit_witness :
    countCompletions (generateResponse envDtmf [] [] "user" "press five"
        (singleToolCallStream "call-1" "send-dtmf" dtmfArgsString)).trace = 2
    ∧ (generateResponse envDtmf [] [] "user" "press five"
        (singleToolCallStream "call-1" "end-call" dtmfArgsString)).result
        = .ok (some (.endEnv { reasonCode := "end-call", reason := "Ending the call" })) := by
  have h := terminal_tool_shortcircuit envDtmf [] [] "user" "press five" "call-1"
    dtmfArgsString ⟨[("dtmfDigit", "5")]⟩ (by decide) (by decide)
  exact ⟨h.2.1.1, h.1.1⟩

/-- C4: every failure class of a tool call yields a structured `error`
envelope without throwing past the turn boundary: (1) invalid structure
(missing/empty function name or arguments) — error envelope, no side
effects; (2) argument string that does not parse as JSON — error
envelope, the tool body is not executed (no fetch, no dispatch); (3) an
HTTP failure (non-2xx) of the outbound business-tool call — error
envelope whose token carries the failure message; (4) a transport error —
likewise; (5) at the engine level, a streamed tool call whose accumulated
argument fragments do not parse is surfaced as an error-typed
`llm.response` emission and an error-envelope return value (`Except.ok`,
i.e. nothing is thrown), with no tool execution step in the trace. -/
theorem tool_failure_error_envelopes (env : JsEnv) (tc : RawToolCall)
    (name acc2 emsg : String) (p : ParsedArgs) (status : Nat) (bodyText rejectMsg : String)
    (followUp : List StreamChunk) (ctx0 : List ChatMsg) (role prompt cid args : String) :
    (¬ (truthyStr tc.name = true ∧ truthyStr tc.arguments = true) →
      executeToolCall env tc
        = (.ok (.error (jsonErrorString
            "Invalid tool call structure - missing required fields") true), []))
    ∧ (truthyStr tc.name = true → truthyStr tc.arguments = true →
      env.jsonParse (tc.arguments.getD "") = .error emsg →
      executeToolCall env tc
        = (.ok (.error (jsonErrorString
            "Invalid tool call arguments - not valid JSON") true), []))
    ∧ (name ≠ "" → acc2 ≠ "" → env.jsonParse acc2 = .ok p →
      name ≠ "live-agent-handoff" → name ≠ "send-dtmf" → name ≠ "end-call" →
      env.fetchTool name p = .notOk status bodyText →
      executeToolCall env { name := some name, arguments := some acc2 }
        = (.ok (.error (jsonErrorString
            ("API call failed with status " ++ toString status ++ ": " ++ bodyText)) true),
           [.fetchCall name p]))
    ∧ (name ≠ "" → acc2 ≠ "" → env.jsonParse acc2 = .ok p →
      name ≠ "live-agent-handoff" → name ≠ "send-dtmf" → name ≠ "end-call" →
      env.fetchTool name p = .reject rejectMsg →
      executeToolCall env { name := some name, arguments := some acc2 }
        = (.ok (.error (jsonErrorString rejectMsg) true), [.fetchCall name p]))
    ∧ (name ≠ "" → args ≠ "" →
      env.jsonParse ((firstJsonObject args).getD args) = .error emsg →
      generateResponse env followUp ctx0 role prompt (singleToolCallStream cid name args)
        = { ctx := ctx0 ++ [{ role := role, content := prompt }],
            trace := [.completionRequest,
              .emitResponse (.error
                (jsonErrorString ("Invalid tool call arguments: " ++ emsg)) true)],
            result := .ok (some (.error
              (jsonErrorString ("Invalid tool call arguments: " ++ emsg)) true)) }) := by
  refine ⟨?_, ?_, ?_, ?_, ?_⟩
  · intro h
    unfold executeToolCall
    rw [if_neg]
    rw [Bool.and_eq_true]
    exact h
  · intro h1 h2 h3
    unfold executeToolCall
    rw [if_pos (by rw [Bool.and_eq_true]; exact ⟨h1, h2⟩)]
    dsimp only
    rw [h3]
  · intro hn ha hp hn1 hn2 hn3 hf
    rw [executeToolCall_valid env name acc2 p hn ha hp]
    rw [if_neg hn1, if_neg hn2, if_neg hn3, hf]
  · intro hn ha hp hn1 hn2 hn3 hf
    rw [executeToolCall_valid env name acc2 p hn ha hp]
    rw [if_neg hn1, if_neg hn2, if_neg hn3, hf]
  · intro hn ha hperr
    unfold generateResponse singleToolCallStream
    simp only [genLoop, processDeltas, processDelta, truthyStr, Option.isNone,
      beq_self_eq_true, Bool.and_self, Option.getD_some]
    rw [show (name == "") = false from by simp [hn]]
    rw [show (args == "") = false from by simp [ha]]
    rw [show ("" ++ args : String) = args from rfl]
    simp only [Bool.not_false, if_true, if_false, if_neg hn, if_neg ha]
    rw [hperr]
    simp

/-- A concrete environment in which every business-tool fetch fails with
HTTP 500 and only the DTMF payload parses as JSON. -/
def envFail : JsEnv :=
  { jsonParse := fun s =>
      if s = dtmfArgsString then .ok ⟨[("dtmfDigit", "5")]⟩ else .error "Unexpected token"
    fetchTool := fun _ _ => .notOk 500 "Internal Server Error" }

theorem tool_failure_error_envelopes_witness :
    executeToolCall envFail { name := none, arguments := some "x" }
      = (.ok (.error (jsonErrorString
          "Invalid tool call structure - missing required fields") true), [])
    ∧ executeToolCall envFail { name := some "status-update", arguments := some "oops" }
      = (.ok (.error (jsonErrorString
          "Invalid tool call arguments - not valid JSON") true), [])
    ∧ executeToolCall envFail { name := some "status-update", arguments := some dtmfArgsString }
      = (.ok (.error (jsonErrorString
          "API call failed with status 500: Internal Server Error") true),
         [.fetchCall "status-update" ⟨[("dtmfDigit", "5")]⟩])
    ∧ generateResponse envFail [] [] "user" "hello"
        (singleToolCallStream "call-1" "status-update" "oops")
      = { ctx := [{ role := "user", content := "hello" }],
          trace := [.completionRequest,
            .emitResponse (.error
              (jsonErrorString "Invalid tool call arguments: Unexpected token") true)],
          result := .ok (some (.error
            (jsonErrorString "Invalid tool call arguments: Unexpected token") true)) } := by
  refine ⟨?_, ?_, ?_, ?_⟩
  · exact (tool_failure_error_envelopes envFail ⟨none, some "x"⟩ "status-update"
      dtmfArgsString "Unexpected token" ⟨[("dtmfDigit", "5")]⟩ 500 "Internal Server Error"
      "reject" [] [] "user" "hello" "call-1" "oops").1 (by decide)
  · exact (tool_failure_error_envelopes envFail ⟨some "status-update", some "oops"⟩
      "status-update" dtmfArgsString "Unexpected token" ⟨[("dtmfDigit", "5")]⟩ 500
      "Internal Server Error" "reject" [] [] "user" "hello" "call-1" "oops").2.1
      (by decide) (by decide) (by decide)
  · exact (tool_failure_error_envelopes envFail ⟨none, none⟩ "status-update"
      dtmfArgsString "Unexpected token" ⟨[("dtmfDigit", "5")]⟩ 500 "Internal Server Error"
      "reject" [] [] "user" "hello" "call-1" "oops").2.2.1
      (by decide) (by decide) (by decide) (by decide) (by decide) (by decide) (by decide)
  · exact (tool_failure_error_envelopes envFail ⟨none, none⟩ "status-update"
      dtmfArgsString "Unexpected token" ⟨[("dtmfDigit", "5")]⟩ 500 "Internal Server Error"
      "reject" [] [] "user" "hello" "call-1" "oops").2.2.2.2
      (by decide) (by decide) (by decide)

/-! ## Transcript pairing invariant (claim C7) -/

/-- Strict pairing: every `tool`-role transcript entry is immediately
preceded by an `assistant`-role entry whose `tool_calls` list contains an
id equal to the tool entry's `tool_call_id`. -/
def toolPairedStrict (ctx : List ChatMsg) : Prop :=
  ∀ i m, ctx.get? i = some m → m.role = "tool" →
    ∃ j prev a, i = j + 1 ∧ ctx.get? j = some prev ∧ prev.role = "assistant"
      ∧ a ∈ prev.tool_calls ∧ some a.id = m.tool_call_id

/-- Weak pairing: every `tool`-role entry is preceded by an
`assistant`-role entry carrying a matching tool-call id, with only other
`tool`-role entries in between. -/
def toolPairedWeak (ctx : List ChatMsg) : Prop :=
  ∀ i m, ctx.get? i = some m → m.role = "tool" →
    ∃ j prev, j < i ∧ ctx.get? j = some prev ∧ prev.role = "assistant"
      ∧ (∃ a, a ∈ prev.tool_calls ∧ some a.id = m.tool_call_id)
      ∧ ∀ k mk2, j < k → k < i → ctx.get? k = some mk2 → mk2.role = "tool"

theorem toolPairedStrict_nil : toolPairedStrict [] := by
  intro i m hget
  simp at hget

theorem toolPairedStrict_single (m : ChatMsg) (h : m.role ≠ "tool") :
    toolPairedStrict [m] := by
  intro i x hget hrole
  cases i with
  | zero =>
    simp at hget
    subst hget
    exact absurd hrole h
  | succ i0 => simp at hget

theorem toolPairedStrict_append (xs ys : List ChatMsg)
    (hx : toolPairedStrict xs) (hy : toolPairedStrict ys) :
    toolPairedStrict (xs ++ ys) := by
  intro i m hget hrole
  by_cases hi : i < xs.length
  · rw [List.get?_append hi] at hget
    obtain ⟨j, prev, a, hij, hj, hprole, ha, hid⟩ := hx i m hget hrole
    refine ⟨j, prev, a, hij, ?_, hprole, ha, hid⟩
    rw [List.get?_append (by omega)]
    exact hj
  · rw [List.get?_append_right (by omega)] at hget
    obtain ⟨j, prev, a, hij, hj, hprole, ha, hid⟩ := hy (i - xs.length) m hget hrole
    refine ⟨xs.length + j, prev, a, by omega, ?_, hprole, ha, hid⟩
    rw [List.get?_append_right (by omega)]
    rw [show xs.length + j - xs.length = j from by omega]
    exact hj

theorem toolPairedWeak_of_strict (ctx : List ChatMsg) (h : toolPairedStrict ctx) :
    toolPairedWeak ctx := by
  intro i m hget hrole
  obtain ⟨j, prev, a, hij, hj, hprole, ha, hid⟩ := h i m hget hrole
  refine ⟨j, prev, by omega, hj, hprole, ⟨a, ha, hid⟩, ?_⟩
  intro k mk2 hk1 hk2
  omega

theorem toolPairedWeak_append (xs ys : List ChatMsg)
    (hx : toolPairedWeak xs) (hy : toolPairedWeak ys) :
    toolPairedWeak (xs ++ ys) := by
  intro i m hget hrole
  by_cases hi : i < xs.length
  · rw [List.get?_append hi] at hget
    obtain ⟨j, prev, hij, hj, hprole, ha, hbetween⟩ := hx i m hget hrole
    refine ⟨j, prev, hij, ?_, hprole, ha, ?_⟩
    · rw [List.get?_append (by omega)]
      exact hj
    · intro k mk2 hk1 hk2 hkget
      rw [List.get?_append (by omega)] at hkget
      exact hbetween k mk2 hk1 hk2 hkget
  · rw [List.get?_append_right (by omega)] at hget
    obtain ⟨j, prev, hij, hj, hprole, ha, hbetween⟩ := hy (i - xs.length) m hget hrole
    refine ⟨xs.length + j, prev, by omega, ?_, hprole, ha, ?_⟩
    · rw [List.get?_append_right (by omega)]
      rw [show xs.length + j - xs.length = j from by omega]
      exact hj
    · intro k mk2 hk1 hk2 hkget
      rw [List.get?_append_right (by omega)] at hkget
      refine hbetween (k - xs.length) mk2 (by omega) (by omega) hkget

theorem toolPairedStrict_historyPair (full cid name args : String) (toolResult : OutMessage) :
    toolPairedStrict
      [{ role := "assistant", content := full,
         tool_calls := [{ id := cid, name := name, arguments := args }] },
       { role := "tool", content := stringifyOut toolResult, tool_call_id := some cid }] := by
  intro i m hget hrole
  match i with
  | 0 =>
    simp at hget
    rw [← hget] at hrole
    simp at hrole
  | 1 =>
    simp at hget
    refine ⟨0, _, { id := cid, name := name, arguments := args }, rfl, rfl, rfl, ?_, ?_⟩
    · simp
    · rw [← hget]
  | (n + 2) => simp at hget

/-- The streaming `generateResponse` loop preserves the strict pairing
invariant: history pushes are either a lone non-tool message or an
adjacent assistant/tool pair sharing the collector's call id. -/
theorem genLoop_toolPairedStrict (env : JsEnv) (followUp : List StreamChunk) :
    ∀ (chunks : List StreamChunk) (ctx : List ChatMsg) (trace : List LlmStep)
      (full : String) (col : Option Collector) (acc : String),
      toolPairedStrict ctx →
      toolPairedStrict (genLoop env followUp chunks ctx trace full col acc).ctx := by
  intro chunks
  induction chunks with
  | nil =>
    intro ctx trace full col acc hctx
    simp only [genLoop]
    by_cases hcol : col.isNone
    · simp only [hcol, if_true]
      exact toolPairedStrict_append ctx _ hctx
        (toolPairedStrict_single _ (by simp))
    · simp only [hcol, if_false]
      exact hctx
  | cons c rest ih =>
    intro ctx trace full col acc hctx
    simp only [genLoop]
    cases hpd : processDeltas col acc c.toolCalls with
    | error e => exact hctx
    | ok st1 =>
      dsimp only
      cases hcol : st1.fst with
      | none =>
        dsimp only
        exact ih ctx _ _ none st1.snd hctx
      | some collector =>
        dsimp only
        by_cases hfin : (c.finishReason == some "tool_calls") = true
        · rw [if_pos hfin]
          by_cases hn : collector.name = ""
          · rw [if_pos hn]
            exact hctx
          · rw [if_neg hn]
            by_cases hacc : st1.snd = ""
            · rw [if_pos hacc]
              exact hctx
            · rw [if_neg hacc]
              cases hjp : env.jsonParse ((firstJsonObject st1.snd).getD st1.snd) with
              | error emsg => exact hctx
              | ok parsed =>
                dsimp only
                cases hex : (executeToolCall env
                    { name := some collector.name,
                      arguments := some ((firstJsonObject st1.snd).getD st1.snd) }).fst with
                | error e => exact hctx
                | ok toolResult =>
                  dsimp only
                  by_cases hend : isEndOrError toolResult = true
                  · rw [if_pos hend]
                    exact hctx
                  · rw [if_neg hend]
                    refine ih _ _ _ (some collector) _ ?_
                    rw [List.append_assoc]
                    exact toolPairedStrict_append ctx _ hctx
                      (toolPairedStrict_historyPair _ collector.id collector.name _ toolResult)
        · have hfin2 : (c.finishReason == some "tool_calls") = false := by
            simpa using hfin
          rw [hfin2]
          simp only [Bool.false_eq_true, if_false]
          exact ih ctx _ _ (some collector) st1.snd hctx

/-! ## Turn-taking engine, switch variant
(`src/server/services/LlmService.js`, non-streaming `generateResponse`
with the tool `switch`) -/

/-- Extra step kind of the switch variant: an outbound fetch whose body is
the raw (unparsed) argument string. -/
structure JsEnvSwitch where
  jsonParse : String → Except String ParsedArgs
  /-- `fetch` of the named business tool with the raw arguments string as
  body, composed with `response.json()` (no `ok` check in this variant):
  either the serialized result or a thrown error message. -/
  fetchToolRaw : String → String → Except String String

/-- `JSON.stringify(\x7b status, summary \x7d)`. -/
def statusContent (status summary : String) : String :=
  "\x7b\"status\":\"" ++ status ++ "\",\"summary\":\"" ++ summary ++ "\"\x7d"

/-- The `tool`-role history entry pushed by the `live-agent-handoff` case. -/
def handoffToolMsg (summary cid : String) : ChatMsg :=
  { role := "tool", content := statusContent "handoff-initiated" summary,
    tool_call_id := some cid }

/-- The `tool`-role history entry pushed by the `send-dtmf` case
(template literal: an absent `dtmfDigit` prints as `undefined`). -/
def dtmfToolMsg (dtmfArgs : ParsedArgs) (cid : String) : ChatMsg :=
  { role := "tool",
    content := "DTMF digit sent: " ++ (dtmfArgs.get "dtmfDigit").getD "undefined",
    tool_call_id := some cid }

/-- The `tool`-role history entry pushed by the `end-call` case. -/
def endCallToolMsg (summary cid : String) : ChatMsg :=
  { role := "tool", content := statusContent "call-ended" summary,
    tool_call_id := some cid }

/-- The `tool`-role history entry pushed by the default (business tool) case. -/
def defaultToolMsg (bodyJson cid : String) : ChatMsg :=
  { role := "tool", content := bodyJson, tool_call_id := some cid }

/-- The emitted `end` envelope of the `live-agent-handoff` case. -/
def handoffEndMsg (summary : String) : OutMessage :=
  .endEnv { reasonCode := "live-agent-handoff", reason := "Reason for the handoff",
            conversationSummary := some summary }

/-- The emitted `end` envelope of the `end-call` case. -/
def endCallEndMsg (summary : String) : OutMessage :=
  .endEnv { reasonCode := "end-call", reason := "Ending the call",
            conversationSummary := some summary }

/-- The `for (const toolCall of toolCalls)` loop of the switch variant:
each case appends one `tool`-role history entry carrying the call's id,
then emits its outcome; `send-text` falls through into the `end-call`
case; argument-parse failures and fetch rejections throw out of the loop
(the partial history pushes are retained). -/
def switchToolLoop (env : JsEnvSwitch) (summary : String) :
    List AssistantToolCall → List ChatMsg → List LlmStep →
    List ChatMsg × List LlmStep × Option JsError
  | [], ctx, trace => (ctx, trace, none)
  | tc :: rest, ctx, trace =>
    if tc.name = "live-agent-handoff" then
      switchToolLoop env summary rest (ctx ++ [handoffToolMsg summary tc.id])
        (trace ++ [.completionRequest, .emitResponse (handoffEndMsg summary)])
    else if tc.name = "send-dtmf" then
      match env.jsonParse tc.arguments with
      | .error emsg => (ctx, trace, some (.genericError emsg))
      | .ok dtmfArgs =>
        switchToolLoop env summary rest (ctx ++ [dtmfToolMsg dtmfArgs tc.id])
          (trace ++ [.emitResponse (.sendDigits (dtmfArgs.get "dtmfDigit"))])
    else if tc.name = "send-text" ∨ tc.name = "end-call" then
      match env.jsonParse tc.arguments with
      | .error emsg => (ctx, trace ++ [.completionRequest], some (.genericError emsg))
      | .ok _callArgs =>
        switchToolLoop env summary rest (ctx ++ [endCallToolMsg summary tc.id])
          (trace ++ [.completionRequest, .emitResponse (endCallEndMsg summary)])
    else
      match env.fetchToolRaw tc.name tc.arguments with
      | .error emsg => (ctx, trace, some (.genericError emsg))
      | .ok bodyJson =>
        switchToolLoop env summary rest (ctx ++ [defaultToolMsg bodyJson tc.id])
          (trace ++ [.emitResponse (.text bodyJson false)])

/-- `generateResponse` (switch variant): push the prompt and request a
completion; if the assistant message carries tool calls, push it, run the
tool loop over all its calls, then request a final completion and push
its message; otherwise push the assistant message and emit its content. -/
def generateResponseSwitch (env : JsEnvSwitch) (summary : String)
    (assistantMessage : ChatMsg) (finalMessage : Option ChatMsg)
    (ctx0 : List ChatMsg) (role prompt : String) :
    List ChatMsg × List LlmStep × Option JsError :=
  let ctx1 := ctx0 ++ [{ role := role, content := prompt }]
  if assistantMessage.tool_calls = [] then
    (ctx1 ++ [assistantMessage],
     [.completionRequest, .emitResponse (.text assistantMessage.content true)], none)
  else
    match switchToolLoop env summary assistantMessage.tool_calls
        (ctx1 ++ [assistantMessage]) [.completionRequest] with
    | (ctx3, trace3, some e) => (ctx3, trace3, some e)
    | (ctx3, trace3, none) =>
      match finalMessage with
      | some m =>
        (ctx3 ++ [m], trace3 ++ [.completionRequest, .emitResponse (.text m.content true)],
         none)
      | none =>
        (ctx3, trace3 ++ [.completionRequest],
         some (.genericError "No response received from OpenAI"))

/-- The switch-variant tool loop only ever appends `tool`-role entries,
each carrying the id of one of the processed tool calls. -/
theorem switchToolLoop_ctx (env : JsEnvSwitch) (summary : String) :
    ∀ (tcs : List AssistantToolCall) (ctx : List ChatMsg) (trace : List LlmStep),
    ∃ tail, (switchToolLoop env summary tcs ctx trace).fst = ctx ++ tail
      ∧ ∀ m ∈ tail, m.role = "tool" ∧ ∃ tc ∈ tcs, m.tool_call_id = some tc.id := by
  intro tcs
  induction tcs with
  | nil =>
    intro ctx trace
    exact ⟨[], by simp [switchToolLoop], by simp⟩
  | cons tc rest ih =>
    intro ctx trace
    simp only [switchToolLoop]
    by_cases h1 : tc.name = "live-agent-handoff"
    · rw [if_pos h1]
      obtain ⟨tail, he, hp⟩ := ih (ctx ++ [handoffToolMsg summary tc.id])
        (trace ++ [.completionRequest, .emitResponse (handoffEndMsg summary)])
      refine ⟨handoffToolMsg summary tc.id :: tail,
        by rw [he, List.append_assoc, List.singleton_append], ?_⟩
      intro m hm
      rcases List.mem_cons.mp hm with hx | ht
      · subst hx
        exact ⟨rfl, tc, List.mem_cons_self tc rest, rfl⟩
      · obtain ⟨hr, tc2, htc2, hid⟩ := hp m ht
        exact ⟨hr, tc2, List.mem_cons_of_mem tc htc2, hid⟩
    · rw [if_neg h1]
      by_cases h2 : tc.name = "send-dtmf"
      · rw [if_pos h2]
        cases hjp : env.jsonParse tc.arguments with
        | error emsg => exact ⟨[], by simp, by simp⟩
        | ok dtmfArgs =>
          obtain ⟨tail, he, hp⟩ := ih (ctx ++ [dtmfToolMsg dtmfArgs tc.id])
            (trace ++ [.emitResponse (.sendDigits (dtmfArgs.get "dtmfDigit"))])
          refine ⟨dtmfToolMsg dtmfArgs tc.id :: tail,
            by rw [he, List.append_assoc, List.singleton_append], ?_⟩
          intro m hm
          rcases List.mem_cons.mp hm with hx | ht
          · subst hx
            exact ⟨rfl, tc, List.mem_cons_self tc rest, rfl⟩
          · obtain ⟨hr, tc2, htc2, hid⟩ := hp m ht
            exact ⟨hr, tc2, List.mem_cons_of_mem tc htc2, hid⟩
      · rw [if_neg h2]
        by_cases h3 : tc.name = "send-text" ∨ tc.name = "end-call"
        · rw [if_pos h3]
          cases hjp : env.jsonParse tc.arguments with
          | error emsg => exact ⟨[], by simp, by simp⟩
          | ok callArgs =>
            obtain ⟨tail, he, hp⟩ := ih (ctx ++ [endCallToolMsg summary tc.id])
              (trace ++ [.completionRequest, .emitResponse (endCallEndMsg summary)])
            refine ⟨endCallToolMsg summary tc.id :: tail,
              by rw [he, List.append_assoc, List.singleton_append], ?_⟩
            intro m hm
            rcases List.mem_cons.mp hm with hx | ht
            · subst hx
              exact ⟨rfl, tc, List.mem_cons_self tc rest, rfl⟩
            · obtain ⟨hr, tc2, htc2, hid⟩ := hp m ht
              exact ⟨hr, tc2, List.mem_cons_of_mem tc htc2, hid⟩
        · rw [if_neg h3]
          cases hfr : env.fetchToolRaw tc.name tc.arguments with
          | error emsg => exact ⟨[], by simp, by simp⟩
          | ok bodyJson =>
            obtain ⟨tail, he, hp⟩ := ih (ctx ++ [defaultToolMsg bodyJson tc.id])
              (trace ++ [.emitResponse (.text bodyJson false)])
            refine ⟨defaultToolMsg bodyJson tc.id :: tail,
              by rw [he, List.append_assoc, List.singleton_append], ?_⟩
            intro m hm
            rcases List.mem_cons.mp hm with hx | ht
            · subst hx
              exact ⟨rfl, tc, List.mem_cons_self tc rest, rfl⟩
            · obtain ⟨hr, tc2, htc2, hid⟩ := hp m ht
              exact ⟨hr, tc2, List.mem_cons_of_mem tc htc2, hid⟩

/-- Weak pairing of a block `user, assistant, tool…, extra…` where every
tool entry carries an id from the assistant's `tool_calls` and the extra
entries are not tool-role. -/
theorem toolPairedWeak_userAsstBlock (u amsg : ChatMsg) (tools extra : List ChatMsg)
    (hu : u.role ≠ "tool") (ha : amsg.role = "assistant")
    (htools : ∀ m ∈ tools, m.role = "tool"
      ∧ ∃ a ∈ amsg.tool_calls, m.tool_call_id = some a.id)
    (hextra : ∀ m ∈ extra, m.role ≠ "tool") :
    toolPairedWeak (u :: amsg :: (tools ++ extra)) := by
  intro i m hget hrole
  match i with
  | 0 =>
    simp at hget
    subst hget
    exact absurd hrole hu
  | 1 =>
    simp at hget
    subst hget
    rw [ha] at hrole
    simp at hrole
  | (it + 2) =>
    have hget2 : (tools ++ extra).get? it = some m := hget
    by_cases hit : it < tools.length
    · rw [List.get?_append hit] at hget2
      have hmem : m ∈ tools := List.get?_mem hget2
      obtain ⟨hmrole, a, hain, hid⟩ := htools m hmem
      refine ⟨1, amsg, by omega, rfl, ha, ⟨a, hain, hid.symm⟩, ?_⟩
      intro k mk2 hk1 hk2 hkget
      obtain ⟨kt, rfl⟩ : ∃ kt, k = kt + 2 := ⟨k - 2, by omega⟩
      have hkget2 : (tools ++ extra).get? kt = some mk2 := hkget
      rw [List.get?_append (by omega)] at hkget2
      exact (htools mk2 (List.get?_mem hkget2)).1
    · rw [List.get?_append_right (by omega)] at hget2
      exact absurd hrole (hextra m (List.get?_mem hget2))

/-- C7 (amended): every `tool`-role transcript entry is preceded by an
`assistant`-role entry whose `tool_calls` contains an id matching the
entry's `tool_call_id`.  In the streaming engine the pairing is strict —
the assistant entry is the immediately preceding entry — and is preserved
by every append (`generateResponse`, `insertMessageIntoContext`).  In the
switch variant an assistant message carrying several tool calls is
followed by its tool entries as a block, so only the first tool entry is
immediately preceded by the assistant entry; each tool entry still
carries an id from that assistant's `tool_calls`, with only tool entries
in between. -/
theorem tool_pairing
    (env : JsEnv) (envS : JsEnvSwitch) (followUp stream : List StreamChunk)
    (ctx0 ctxS : List ChatMsg) (role prompt roleS promptS summary : String)
    (amsg : ChatMsg) (finalMsg : Option ChatMsg)
    (hctx0 : toolPairedStrict ctx0) (hrole : role ≠ "tool")
    (hctxS : toolPairedWeak ctxS) (hroleS : roleS ≠ "tool")
    (hamsg : amsg.role = "assistant")
    (hfin : ∀ m, finalMsg = some m → m.role ≠ "tool") :
    toolPairedStrict (generateResponse env followUp ctx0 role prompt stream).ctx
    ∧ toolPairedStrict (insertMessageIntoContext ctx0 role prompt)
    ∧ toolPairedWeak
        (generateResponseSwitch envS summary amsg finalMsg ctxS roleS promptS).fst := by
  have huser : toolPairedStrict (ctx0 ++ [{ role := role, content := prompt }]) :=
    toolPairedStrict_append _ _ hctx0 (toolPairedStrict_single _ hrole)
  refine ⟨?_, ?_, ?_⟩
  · unfold generateResponse
    exact genLoop_toolPairedStrict env followUp stream _ _ "" none "" huser
  · exact huser
  · by_cases htc : amsg.tool_calls = []
    · unfold generateResponseSwitch
      rw [if_pos htc]
      dsimp only
      have hshape : (ctxS ++ [{ role := roleS, content := promptS }]) ++ [amsg]
          = ctxS ++ ({ role := roleS, content := promptS } :: amsg :: ([] ++ [])) := by
        simp
      rw [hshape]
      exact toolPairedWeak_append _ _ hctxS
        (toolPairedWeak_userAsstBlock _ amsg [] [] hroleS hamsg (by simp) (by simp))
    · unfold generateResponseSwitch
      rw [if_neg htc]
      obtain ⟨tail, he, hp⟩ := switchToolLoop_ctx envS summary amsg.tool_calls
        ((ctxS ++ [{ role := roleS, content := promptS }]) ++ [amsg]) [.completionRequest]
      cases hloop : switchToolLoop envS summary amsg.tool_calls
          ((ctxS ++ [{ role := roleS, content := promptS }]) ++ [amsg])
          [.completionRequest] with
      | mk ctx3 rest2 =>
        cases rest2 with
        | mk trace3 err =>
          rw [hloop] at he
          simp only at he
          cases err with
          | some e =>
            dsimp only
            rw [he]
            have hshape : ((ctxS ++ [{ role := roleS, content := promptS }]) ++ [amsg]) ++ tail
                = ctxS ++ ({ role := roleS, content := promptS } :: amsg :: (tail ++ [])) := by
              simp
            rw [hshape]
            exact toolPairedWeak_append _ _ hctxS
              (toolPairedWeak_userAsstBlock _ amsg tail [] hroleS hamsg hp (by simp))
          | none =>
            cases finalMsg with
            | some m =>
              dsimp only
              rw [he]
              have hshape : (((ctxS ++ [{ role := roleS, content := promptS }]) ++ [amsg])
                    ++ tail) ++ [m]
                  = ctxS ++ ({ role := roleS, content := promptS } :: amsg :: (tail ++ [m])) := by
                simp
              rw [hshape]
              refine toolPairedWeak_append _ _ hctxS
                (toolPairedWeak_userAsstBlock _ amsg tail [m] hroleS hamsg hp ?_)
              intro m2 hm2
              rw [List.mem_singleton.mp hm2]
              exact hfin m rfl
            | none =>
              dsimp only
              rw [he]
              have hshape : ((ctxS ++ [{ role := roleS, content := promptS }]) ++ [amsg]) ++ tail
                  = ctxS ++ ({ role := roleS, content := promptS } :: amsg :: (tail ++ [])) := by
                simp
              rw [hshape]
              exact toolPairedWeak_append _ _ hctxS
                (toolPairedWeak_userAsstBlock _ amsg tail [] hroleS hamsg hp (by simp))

/-- A switch-variant environment in which argument JSON always parses and
every business-tool fetch returns `"OK"`. -/
def envSwitchPair : JsEnvSwitch :=
  { jsonParse := fun _ => .ok ⟨[]⟩
    fetchToolRaw := fun _ _ => .ok "OK" }

/-- An assistant completion carrying two (business) tool calls. -/
def assistantTwoTools : ChatMsg :=
  { role := "assistant", content := "",
    tool_calls := [{ id := "id1", name := "status-update", arguments := "a1" },
                   { id := "id2", name := "verify-send", arguments := "a2" }] }

/-- The transcript produced by the switch variant on that turn. -/
def switchRunCtx : List ChatMsg :=
  (generateResponseSwitch envSwitchPair "sum" assistantTwoTools
    (some { role := "assistant", content := "done" })
    [{ role := "system", content := "base" }] "user" "hi").fst

/-- C7 counterexample: with one assistant message carrying two tool
calls, the switch variant pushes both tool entries after the assistant
entry, so the second tool entry (index 4) is immediately preceded by a
`tool`-role entry (index 3), not an `assistant`-role one — the strict
immediately-preceding invariant stated by the claim fails. -/
theorem tool_pairing_counterexample :
    switchRunCtx.get? 3
        = some { role := "tool", content := "OK", tool_call_id := some "id1" }
    ∧ switchRunCtx.get? 4
        = some { role := "tool", content := "OK", tool_call_id := some "id2" }
    ∧ ¬ toolPairedStrict switchRunCtx := by
  refine ⟨rfl, rfl, ?_⟩
  intro h
  obtain ⟨j, prev, a, hij, hj, hprole, -, -⟩ :=
    h 4 { role := "tool", content := "OK", tool_call_id := some "id2" } rfl rfl
  have hj3 : j = 3 := by omega
  subst hj3
  rw [show switchRunCtx.get? 3
      = some { role := "tool", content := "OK", tool_call_id := some "id1" } from rfl] at hj
  have hprev := Option.some.inj hj
  rw [← hprev] at hprole
  exact absurd hprole (by decide)

theorem tool_pairing_witness :
    toolPairedStrict (generateResponse envDtmf [] [] "user" "ping" []).ctx
    ∧ toolPairedWeak (generateResponseSwitch envSwitchPair "sum" assistantTwoTools
        (some { role := "assistant", content := "done" }) [] "user" "hi").fst := by
  have h := tool_pairing envDtmf envSwitchPair [] [] [] [] "user" "ping" "user" "hi" "sum"
    assistantTwoTools (some { role := "assistant", content := "done" })
    toolPairedStrict_nil (by decide)
    (toolPairedWeak_of_strict [] toolPairedStrict_nil) (by decide) rfl
    (fun m hm => by
      rw [← Option.some.inj hm]
      decide)
  exact ⟨h.1, h.2.2⟩

/-! ## Websocket setup and prompt handlers
(`src/server/server.js`; the `src/unnamed/part_003` variant) -/

/-- Observable steps of the websocket message handler. -/
inductive ServerStep where
  /-- `ws.send(JSON.stringify(m))` -/
  | wsSendStep (m : OutMessage)
  /-- an explicit close of the websocket (never performed by the handler) -/
  | wsCloseStep
  /-- `await new Promise(resolve => setTimeout(resolve, ms))` -/
  | waitStep (ms : Nat)
  /-- `flexService.createConversationMessage(conversationSid, author, body)` -/
  | flexWriteStep (author : String) (body : String)
  /-- construction of the session `LlmService` and `ConversationRelayService` -/
  | createRelayStep
  /-- `sessionConversationRelay.on(event, …)` -/
  | registerListenerStep (event : String)
  /-- the (non-awaited) call `sessionConversationRelay.setup(sessionCustomerData)` -/
  | invokeSetupStep
  /-- a model completion request performed downstream -/
  | modelCompletionStep
  /-- a `conversationRelay.response` event emission reaching the socket layer -/
  | emitResponseStep (m : OutMessage)
deriving DecidableEq, Repr

/-- The per-reference entry of `customerDataMap` as the setup branch
consults it: whether the asynchronous reservation enrichment has landed. -/
structure SessionEntry where
  hasReservation : Bool
deriving DecidableEq, Repr

def registryLookup (registry : List (String × SessionEntry)) (ref : String) :
    Option SessionEntry :=
  (registry.find? (fun p => p.fst == ref)).map Prod.snd

/-- The `setup` branch of the websocket message handler in
`src/server/server.js` (lines 49–118): on a registry miss, send a final
text message and return (no close, no session); otherwise wait 100 ms
once if the reservation has not arrived, then create the services,
register the response listener, invoke `setup` (not awaited) and register
the remaining listeners.  Returns the synchronous step trace and whether
a conversation-relay session was created. -/
def handleSetupMessage (registry : List (String × SessionEntry)) (ref : String) :
    List ServerStep × Bool :=
  match registryLookup registry ref with
  | none => ([.wsSendStep (.text "Customer data not found" true)], false)
  | some entry =>
    ((if entry.hasReservation then [] else [.waitStep 100])
      ++ [.createRelayStep,
          .registerListenerStep "conversationRelay.response",
          .invokeSetupStep,
          .registerListenerStep "silence",
          .registerListenerStep "agentMessage"], true)

/-- The `setup` branch of the `src/unnamed/part_003` variant (lines
79–187): identical miss handling and reservation wait, but `setup` is
invoked before any listener is registered. -/
def handleSetupMessagePart3 (registry : List (String × SessionEntry)) (ref : String) :
    List ServerStep × Bool :=
  match registryLookup registry ref with
  | none => ([.wsSendStep (.text "Customer data not found" true)], false)
  | some entry =>
    ((if entry.hasReservation then [] else [.waitStep 100])
      ++ [.createRelayStep,
          .invokeSetupStep,
          .registerListenerStep "conversationRelay.response",
          .registerListenerStep "silence",
          .registerListenerStep "conversationRelay.agentMessage",
          .registerListenerStep "conversationRelay.prompt",
          .registerListenerStep "conversationRelay.end",
          .registerListenerStep "conversationRelay.dtmf",
          .registerListenerStep "conversationRelay.handoff"], true)

def isWaitStep : ServerStep → Bool
  | .waitStep _ => true
  | _ => false

/-- C5 (amended): when the setup event's correlation token has no entry
in the registry, the handler sends a final message (type `text`, token
`Customer data not found`, `last: true`) on the socket and returns:
no retry (no wait step), no conversation-relay session is created, and —
contrary to the claim — the socket is not closed (no close step is ever
performed).  The `part_003` variant behaves identically. -/
theorem setup_missing_customer_data (registry : List (String × SessionEntry))
    (ref : String) (h : registryLookup registry ref = none) :
    handleSetupMessage registry ref
      = ([.wsSendStep (.text "Customer data not found" true)], false)
    ∧ ServerStep.wsCloseStep ∉ (handleSetupMessage registry ref).fst
    ∧ ServerStep.createRelayStep ∉ (handleSetupMessage registry ref).fst
    ∧ (handleSetupMessage registry ref).fst.filter isWaitStep = []
    ∧ handleSetupMessagePart3 registry ref
      = ([.wsSendStep (.text "Customer data not found" true)], false) := by
  unfold handleSetupMessage handleSetupMessagePart3
  rw [h]
  refine ⟨rfl, ?_, ?_, rfl, rfl⟩
  · simp
  · simp

/-- C5 counterexample: at a concrete registry miss the handler's step
trace is exactly one `ws.send` of a `text`-typed message — in particular
it contains no socket-close step, falsifying "closes the socket". -/
theorem setup_missing_customer_data_counterexample :
    (handleSetupMessage [] "AC123").fst
      = [.wsSendStep (.text "Customer data not found" true)]
    ∧ ServerStep.wsCloseStep ∉ (handleSetupMessage [] "AC123").fst := by
  refine ⟨rfl, by decide⟩

theorem setup_missing_customer_data_witness :
    handleSetupMessage [] "AC123"
      = ([.wsSendStep (.text "Customer data not found" true)], false)
    ∧ handleSetupMessagePart3 [] "AC123"
      = ([.wsSendStep (.text "Customer data not found" true)], false) := by
  have h := setup_missing_customer_data [] "AC123" rfl
  exact ⟨h.1, h.2.2.2.2⟩

/-- C8: when the correlation token is present, the setup handler waits at
most once, for 100 ms, when the reservation data has not yet arrived, and
then proceeds to invoke `setup` in all cases — whether or not the
reservation is present — so the wait is bounded and setup proceeds in
degraded mode rather than blocking; the handler is a total function
(it cannot hang or crash). -/
theorem setup_reservation_bounded_wait (registry : List (String × SessionEntry))
    (ref : String) (entry : SessionEntry)
    (h : registryLookup registry ref = some entry) :
    (handleSetupMessage registry ref).snd = true
    ∧ ((handleSetupMessage registry ref).fst.filter isWaitStep).length ≤ 1
    ∧ (∀ n, ServerStep.waitStep n ∈ (handleSetupMessage registry ref).fst → n = 100)
    ∧ ServerStep.invokeSetupStep ∈ (handleSetupMessage registry ref).fst := by
  unfold handleSetupMessage
  rw [h]
  dsimp only
  refine ⟨rfl, ?_, ?_, ?_⟩
  · by_cases hres : entry.hasReservation = true
    · rw [if_pos hres]
      simp [isWaitStep]
    · rw [if_neg hres]
      simp [isWaitStep]
  · intro n hn
    by_cases hres : entry.hasReservation = true
    · rw [if_pos hres] at hn
      simp at hn
    · rw [if_neg hres] at hn
      simp at hn
      exact hn
  · by_cases hres : entry.hasReservation = true
    · rw [if_pos hres]
      simp
    · rw [if_neg hres]
      simp

theorem setup_reservation_bounded_wait_witness :
    (handleSetupMessage [("AC123", ⟨false⟩)] "AC123").snd = true
    ∧ ((handleSetupMessage [("AC123", ⟨false⟩)] "AC123").fst.filter isWaitStep).length ≤ 1
    ∧ ServerStep.invokeSetupStep ∈ (handleSetupMessage [("AC123", ⟨false⟩)] "AC123").fst := by
  have h := setup_reservation_bounded_wait [("AC123", ⟨false⟩)] "AC123" ⟨false⟩ rfl
  exact ⟨h.1, h.2.1, h.2.2.2⟩

/-- Event-loop composition of the setup branch: `setup()` is called
without `await` and its body suspends at the model completion request
before any `conversationRelay.response` emission, so every emission runs
after the handler's synchronous block has completed. -/
def setupEventLoopTrace (syncTrace : List ServerStep) (emissions : List OutMessage) :
    List ServerStep :=
  syncTrace ++ emissions.map ServerStep.emitResponseStep

/-- C6 (amended): in `server.js` the `conversationRelay.response`
subscription is registered before `setup` is invoked; in the `part_003`
variant `setup` is invoked first and the subscription is registered
immediately afterwards in the same synchronous block; in both variants
the subscription is attached before any streamed response chunk is
emitted — the first emission occurs only after `setup`'s first
asynchronous suspension, hence after the whole synchronous block — so no
chunk can be missed in either variant. -/
theorem response_listener_attached_before_chunks
    (registry : List (String × SessionEntry)) (ref : String) (entry : SessionEntry)
    (emissions : List OutMessage)
    (h : registryLookup registry ref = some entry) :
    (handleSetupMessage registry ref).fst.indexOf
        (ServerStep.registerListenerStep "conversationRelay.response")
      < (handleSetupMessage registry ref).fst.indexOf ServerStep.invokeSetupStep
    ∧ (∀ i m, (setupEventLoopTrace (handleSetupMessage registry ref).fst emissions).get? i
          = some (ServerStep.emitResponseStep m) →
        ∃ j, j < i
          ∧ (setupEventLoopTrace (handleSetupMessage registry ref).fst emissions).get? j
            = some (ServerStep.registerListenerStep "conversationRelay.response"))
    ∧ (∀ i m,
        (setupEventLoopTrace (handleSetupMessagePart3 registry ref).fst emissions).get? i
          = some (ServerStep.emitResponseStep m) →
        ∃ j, j < i
          ∧ (setupEventLoopTrace (handleSetupMessagePart3 registry ref).fst emissions).get? j
            = some (ServerStep.registerListenerStep "conversationRelay.response")) := by
  unfold handleSetupMessage handleSetupMessagePart3
  rw [h]
  dsimp only
  by_cases hres : entry.hasReservation = true
  · rw [if_pos hres]
    refine ⟨by decide, ?_, ?_⟩
    · intro i m hget
      simp only [setupEventLoopTrace, List.nil_append, List.cons_append] at hget ⊢
      have hi : ¬ i < 5 := by
        intro hilt
        interval_cases i <;> simp [List.get?] at hget
      exact ⟨1, by omega, rfl⟩
    · intro i m hget
      simp only [setupEventLoopTrace, List.nil_append, List.cons_append] at hget ⊢
      have hi : ¬ i < 9 := by
        intro hilt
        interval_cases i <;> simp [List.get?] at hget
      exact ⟨2, by omega, rfl⟩
  · rw [if_neg hres]
    refine ⟨by decide, ?_, ?_⟩
    · intro i m hget
      simp only [setupEventLoopTrace, List.nil_append, List.cons_append] at hget ⊢
      have hi : ¬ i < 6 := by
        intro hilt
        interval_cases i <;> simp [List.get?] at hget
      exact ⟨2, by omega, rfl⟩
    · intro i m hget
      simp only [setupEventLoopTrace, List.nil_append, List.cons_append] at hget ⊢
      have hi : ¬ i < 10 := by
        intro hilt
        interval_cases i <;> simp [List.get?] at hget
      exact ⟨3, by omega, rfl⟩

/-- C6 counterexample: in the `part_003` variant, `setup` is invoked
(synchronous trace position 1) before the `conversationRelay.response`
listener is registered (position 2), falsifying "the subscription is
registered before `setup` is invoked" for that handler. -/
theorem response_listener_attached_before_chunks_counterexample :
    (handleSetupMessagePart3 [("AC123", ⟨true⟩)] "AC123").fst.indexOf
        ServerStep.invokeSetupStep
      < (handleSetupMessagePart3 [("AC123", ⟨true⟩)] "AC123").fst.indexOf
          (ServerStep.registerListenerStep "conversationRelay.response") := by
  decide

theorem response_listener_attached_before_chunks_witness :
    (handleSetupMessage [("AC123", ⟨true⟩)] "AC123").fst.indexOf
        (ServerStep.registerListenerStep "conversationRelay.response")
      < (handleSetupMessage [("AC123", ⟨true⟩)] "AC123").fst.indexOf
          ServerStep.invokeSetupStep := by
  exact (response_listener_attached_before_chunks [("AC123", ⟨true⟩)] "AC123" ⟨true⟩ []
    rfl).1

/-- JavaScript truthiness of `response.last`: `text` and `error`
envelopes carry the flag; `end` and `sendDigits` envelopes have no `last`
property (`undefined`, falsy). -/
def lastOf : OutMessage → Bool
  | .text _ last => last
  | .error _ last => last
  | _ => false

def tokenOf : OutMessage → String
  | .text t _ => t
  | .error t _ => t
  | _ => ""

/-- The `conversationRelay.response` listener of `server.js` (lines
87–97): forward the message to the socket, and when it is the last one,
write its token to the Flex interaction as author `Chemtrails`. -/
def responseListenerSteps (m : OutMessage) : List ServerStep :=
  [.wsSendStep m] ++ (if lastOf m then [.flexWriteStep "Chemtrails" (tokenOf m)] else [])

/-- Modelled from the spec: the `ConversationRelayService` variant that
defines `incomingMessage` (called by `server.js` line 133) and re-emits
the engine's `llm.response` events as `conversationRelay.response` is not
among the sources under `src/` — the included variants only define
`handleMessage` and do not forward.  Per the spec (§2, §4.1) the
orchestrator "republishes normalized lifecycle events (response chunk,
end, DTMF, handoff, agent message) to its caller", so each engine step is
mapped to the socket layer: completion requests are kept as markers and
each `llm.response` emission is delivered to the registered response
listener. -/
def serverStepOfLlm : LlmStep → List ServerStep
  | .completionRequest => [.modelCompletionStep]
  | .emitResponse m => responseListenerSteps m
  | .executeTool _ => []
  | .fetchCall _ _ => []
  | .emitError _ => []

/-- The `prompt` branch of the websocket message handler (`server.js`
lines 126–133): `await` the Flex write of the caller utterance (author
`Pharmacy`), and only once it has completed hand the message to the
conversation relay, which generates the model response; if the awaited
write rejects, the catch block swallows the error and the model is never
invoked. -/
def handlePromptMessage (flexWriteOk : Bool) (env : JsEnv)
    (followUp stream : List StreamChunk) (llmCtx : List ChatMsg)
    (voicePrompt : String) : List ServerStep :=
  if flexWriteOk then
    .flexWriteStep "Pharmacy" voicePrompt
      :: ((generateResponse env followUp llmCtx "user" voicePrompt stream).trace.bind
            serverStepOfLlm)
  else
    [.flexWriteStep "Pharmacy" voicePrompt]

theorem serverStepOfLlm_no_pharmacy (s : LlmStep) (st : ServerStep)
    (h : st ∈ serverStepOfLlm s) : ∀ a, st ≠ ServerStep.flexWriteStep "Pharmacy" a := by
  intro a heq
  subst heq
  cases s with
  | completionRequest => simp [serverStepOfLlm] at h
  | emitResponse m =>
    by_cases hl : lastOf m = true
    · simp [serverStepOfLlm, responseListenerSteps, hl] at h
    · simp [serverStepOfLlm, responseListenerSteps, hl] at h
  | executeTool n => simp [serverStepOfLlm] at h
  | fetchCall n p => simp [serverStepOfLlm] at h
  | emitError e => simp [serverStepOfLlm] at h

/-- C1: for any caller utterance and any model generation (arbitrarily
many streamed chunks, tool calls included), the transcript-log write of
the caller utterance (author `Pharmacy`) is the first step of the prompt
handler — it is awaited before the relay (and hence the model) is
invoked — every model completion request comes strictly after it, every
reply-log write (author `Chemtrails`) comes strictly after it, and if
the awaited caller-utterance write fails the model is never invoked. -/
theorem prompt_log_before_reply (flexWriteOk : Bool) (env : JsEnv)
    (followUp stream : List StreamChunk) (llmCtx : List ChatMsg) (voicePrompt : String) :
    (handlePromptMessage flexWriteOk env followUp stream llmCtx voicePrompt).get? 0
      = some (.flexWriteStep "Pharmacy" voicePrompt)
    ∧ (∀ j a, (handlePromptMessage flexWriteOk env followUp stream llmCtx voicePrompt).get? j
        = some (.flexWriteStep "Pharmacy" a) → j = 0)
    ∧ (∀ j, (handlePromptMessage flexWriteOk env followUp stream llmCtx voicePrompt).get? j
        = some ServerStep.modelCompletionStep → 0 < j)
    ∧ (∀ i a j b,
        (handlePromptMessage flexWriteOk env followUp stream llmCtx voicePrompt).get? i
          = some (.flexWriteStep "Pharmacy" a) →
        (handlePromptMessage flexWriteOk env followUp stream llmCtx voicePrompt).get? j
          = some (.flexWriteStep "Chemtrails" b) → i < j)
    ∧ (flexWriteOk = false →
        handlePromptMessage flexWriteOk env followUp stream llmCtx voicePrompt
          = [.flexWriteStep "Pharmacy" voicePrompt]) := by
  cases flexWriteOk with
  | false =>
    refine ⟨rfl, ?_, ?_, ?_, fun _ => rfl⟩
    · intro j a hj
      cases j with
      | zero => rfl
      | succ n => simp [handlePromptMessage, List.get?] at hj
    · intro j hj
      cases j with
      | zero => simp [handlePromptMessage, List.get?] at hj
      | succ n => exact Nat.succ_pos n
    · intro i a j b hi hj
      cases j with
      | zero => simp [handlePromptMessage, List.get?] at hj
      | succ n => simp [handlePromptMessage, List.get?] at hj
  | true =>
    have hP : ∀ j a,
        (handlePromptMessage true env followUp stream llmCtx voicePrompt).get? j
          = some (ServerStep.flexWriteStep "Pharmacy" a) → j = 0 := by
      intro j a hj
      cases j with
      | zero => rfl
      | succ n =>
        have hrw : (handlePromptMessage true env followUp stream llmCtx voicePrompt).get? (n+1)
            = ((generateResponse env followUp llmCtx "user" voicePrompt stream).trace.bind
                serverStepOfLlm).get? n := rfl
        rw [hrw] at hj
        have hmem := List.get?_mem hj
        obtain ⟨s, hs, hmem2⟩ := List.mem_bind.mp hmem
        exact absurd rfl (serverStepOfLlm_no_pharmacy s _ hmem2 a)
    refine ⟨rfl, hP, ?_, ?_, ?_⟩
    · intro j hj
      cases j with
      | zero => simp [handlePromptMessage, List.get?] at hj
      | succ n => exact Nat.succ_pos n
    · intro i a j b hi hj
      have hi0 := hP i a hi
      subst hi0
      cases j with
      | zero => simp [handlePromptMessage, List.get?] at hj
      | succ n => exact Nat.succ_pos n
    · intro hfalse
      simp at hfalse

theorem prompt_log_before_reply_witness :
    (handlePromptMessage true envDtmf [] [] [] "hello").get? 0
      = some (.flexWriteStep "Pharmacy" "hello")
    ∧ (handlePromptMessage true envDtmf [] [] [] "hello").get? 3
      = some (.flexWriteStep "Chemtrails" "")
    ∧ 0 < 3 := by
  have h := prompt_log_before_reply true envDtmf [] [] [] "hello"
  exact ⟨h.1, rfl, h.2.2.2.1 0 "hello" 3 "" rfl rfl⟩
